import Mathlib

/-!
# ffmpeglearn: media_info_reader, simple_decoder, simple_encoder

A shallow embedding of the three demonstration programs.  The multimedia
framework is external: every call into it is answered by an environment
record holding the result of that call, and every program returns its exit
code together with the ordered list of calls and messages it performed.

Conventions
* C `int` values are `Int`.  An `int` expression that is used as an array
  index or added to a pointer is reduced to 32 bits, two's complement
  (`int32`), as the compiled program computes it; a store into a `uint8_t`
  keeps the value modulo 256; an `int` passed as `size_t` is taken modulo
  2^64.
* A pointer result is a `Bool`: `true` for a non-NULL pointer.
* `argv` is split into `argv[0]` and the list of positional arguments, so
  `argc = 1 + args.length`.
-/

/-- Severity passed to `av_log`. -/
inductive LogLevel
  | error
  | info
deriving DecidableEq, Repr

/-- Fields of the encoder context assigned by `simple_encoder` (lines 91-97). -/
structure CodecCfg where
  width : Int
  height : Int
  time_base_num : Int
  time_base_den : Int
  framerate_num : Int
  framerate_den : Int
  gop_size : Int
  max_b_frames : Int
deriving DecidableEq, Repr

/-- Observable steps of a run: calls into the framework (with the result the
framework gave, where the program looks at it), calls of the C library, and
calls of `save_gray_frame`. -/
inductive Ev
  | printf (text : String)
  | av_log_set_level
  | av_log (level : LogLevel) (fmt : String) (args : List String)
  | av_strerror (code : Int)
  | avformat_open_input (path : String) (ret : Int)
  | avformat_find_stream_info (ret : Int)
  | av_dump_format
  | avformat_close_input
  | av_find_best_stream (ret : Int)
  | avcodec_find_decoder (found : Bool)
  | avcodec_alloc_context3 (ok : Bool)
  | avcodec_parameters_to_context (ret : Int)
  | avcodec_open2 (ret : Int)
  | av_packet_alloc (ok : Bool)
  | av_frame_alloc (ok : Bool)
  | av_read_frame (ret : Int)
  | avcodec_send_packet (ret : Int)
  | avcodec_receive_frame (ret : Int)
  | save_gray_frame (frame_num : Int)
  | av_packet_unref
  | av_packet_free
  | av_frame_free
  | avcodec_close
  | avcodec_free_context
  | avformat_alloc_output_context2 (path : String) (ok : Bool)
  | avcodec_find_encoder_by_name (name : String) (found : Bool)
  | avformat_new_stream (ok : Bool)
  | codec_ctx_assign (cfg : CodecCfg)
  | av_opt_set (key : String) (value : String)
  | avcodec_parameters_from_context (ret : Int)
  | avio_open (path : String) (ret : Int)
  | avformat_write_header (ret : Int)
  | av_frame_get_buffer (ret : Int)
  | av_frame_make_writable (ret : Int)
  | avcodec_send_frame (pts : Option Int) (ret : Int)
  | avcodec_receive_packet (ret : Int) (pkt : Nat)
  | av_packet_rescale_ts
  | av_interleaved_write_frame (pkt : Nat) (stream_index : Int) (ret : Int)
  | av_write_trailer (ret : Int)
  | avio_closep
  | avformat_free_context
deriving DecidableEq, Repr

/-- Error codes of the framework headers, which are not part of the
repository: `AVERROR(EAGAIN)`, `AVERROR_EOF` and `AVERROR(ENOMEM)`. -/
structure AVCodes where
  EAGAIN : Int
  EOF : Int
  ENOMEM : Int
deriving DecidableEq, Repr

/-- The largest value of a C `int`. -/
def INT_MAX : Int := 2147483647

/-- The value of an `int` expression as the compiled program computes it: in
32 bits, two's complement. -/
def int32 (v : Int) : Int := (v + 2147483648) % 4294967296 - 2147483648

/-- What the headers guarantee about the codes: all three are negative and the
two "no output" codes are different. -/
def AVCodes.wf (c : AVCodes) : Prop :=
  c.EAGAIN < 0 ∧ c.EOF < 0 ∧ c.ENOMEM < 0 ∧ c.EAGAIN ≠ c.EOF

instance (c : AVCodes) : Decidable c.wf := by
  unfold AVCodes.wf; infer_instance

/-- The values on Linux: `-EAGAIN`, `-MKTAG('E','O','F',' ')`, `-ENOMEM`. -/
def linuxCodes : AVCodes := { EAGAIN := -11, EOF := -541478725, ENOMEM := -12 }

namespace media_info_reader

/-- Results of the two fallible framework calls, and `av_strerror`. -/
structure Env where
  open_input : Int
  find_stream_info : Int
  strerror : Int → String

/-- The function `main` of `media_info_reader.c`. -/
def main (argv0 : String) (args : List String) (env : Env) : Int × List Ev :=
  match args with
  | [] => (-1, [Ev.printf ("Usage: " ++ argv0 ++ " <input_file>\n")])
  | input_filename :: _ =>
    let t1 := [Ev.av_log_set_level, Ev.avformat_open_input input_filename env.open_input]
    let ret := env.open_input
    if ret < 0 then
      (ret, t1 ++ [Ev.av_strerror ret,
                   Ev.av_log .error "Cannot open input file '%s': %s\n"
                     [input_filename, env.strerror ret]])
    else
      let t2 := t1 ++ [Ev.av_log .info "Successfully opened file: %s\n" [input_filename],
                       Ev.avformat_find_stream_info env.find_stream_info]
      let ret := env.find_stream_info
      if ret < 0 then
        (ret, t2 ++ [Ev.av_strerror ret,
                     Ev.av_log .error "Failed to find stream information: %s\n"
                       [env.strerror ret],
                     Ev.avformat_close_input])
      else
        (0, t2 ++ [Ev.av_log .info "Stream information found.\n\n" [],
                   Ev.av_dump_format,
                   Ev.avformat_close_input,
                   Ev.av_log .info "\nCleanup finished.\n" []])

end media_info_reader

namespace simple_decoder

/-- The part of the framework's `AVFrame` that `save_gray_frame` reads: the
dimensions, `linesize[0]`, and the bytes of plane 0 addressed by their offset
from `data[0]`. -/
structure AVFrame where
  width : Int
  height : Int
  linesize0 : Int
  data0 : Int → Nat

/-- The three numeric fields of the frame are C `int`s. -/
def AVFrame.fields_are_int (frame : AVFrame) : Prop :=
  (-2147483648 ≤ frame.width ∧ frame.width ≤ INT_MAX) ∧
  (-2147483648 ≤ frame.height ∧ frame.height ≤ INT_MAX) ∧
  (-2147483648 ≤ frame.linesize0 ∧ frame.linesize0 ≤ INT_MAX)

/-- The bytes of an ASCII string. -/
def ascii (s : String) : List Nat := s.toList.map Char.toNat

/-- An `int` converted to `size_t`. -/
def size_t_of_int (v : Int) : Nat := (v % 2 ^ 64).toNat

/-- The bytes `fwrite(base + off, 1, nmemb, f)` appends to the file. -/
def fwrite (mem : Int → Nat) (off : Int) (nmemb : Nat) : List Nat :=
  (List.range nmemb).map (fun (k : Nat) => mem (off + (k : Int)))

/-- The row loop of `save_gray_frame` (lines 25-29), appending to the file
contents `out`.  The product `y * frame->linesize[0]` is an `int`. -/
def write_rows (frame : AVFrame) (out : List Nat) : List Nat :=
  (List.range frame.height.toNat).foldl
    (fun (acc : List Nat) (y : Nat) =>
      acc ++ fwrite frame.data0 (int32 ((y : Int) * frame.linesize0))
        (size_t_of_int frame.width))
    out

/-- The name `snprintf` builds from "frame-%d.pgm". -/
def pgm_filename (frame_num : Int) : String :=
  "frame-" ++ toString frame_num ++ ".pgm"

/-- What `save_gray_frame` leaves behind: the file it wrote, if it could open
one, and its log messages. -/
structure Saved where
  file : Option (String × List Nat)
  log : List Ev

/-- The function `save_gray_frame`; `fopen_ok` tells whether `fopen` gave a
file. -/
def save_gray_frame (fopen_ok : Bool) (frame : AVFrame) (frame_num : Int) : Saved :=
  let filename := pgm_filename frame_num
  if !fopen_ok then
    { file := none, log := [Ev.av_log .error "Could not open %s\n" [filename]] }
  else
    let header :=
      ascii ("P5\n" ++ toString frame.width ++ " " ++ toString frame.height ++ "\n255\n")
    { file := some (filename, write_rows frame header),
      log := [Ev.av_log .info "Saved frame %d to %s\n" [toString frame_num, filename]] }

/-- One packet delivered by `av_read_frame`, with what the decoder answers
when it is sent: the result of `avcodec_send_packet` and the results of the
`avcodec_receive_frame` calls that follow.  Once `recv` is used up the decoder
answers `AVERROR(EAGAIN)`. -/
structure Packet where
  stream_index : Int
  send : Int
  recv : List Int
deriving DecidableEq, Repr

/-- Results of the framework calls of `simple_decoder`.  `av_read_frame`
returns 0 for each packet of `packets` in turn and `AVERROR_EOF` after the
last one. -/
structure Env where
  open_input : Int
  find_stream_info : Int
  find_best_stream : Int
  find_decoder : Bool
  alloc_context3 : Bool
  parameters_to_context : Int
  open2 : Int
  packet_alloc : Bool
  frame_alloc : Bool
  packets : List Packet
deriving DecidableEq, Repr

/-- How the inner loop is left: falling out of it, or by `goto end`. -/
inductive Flow
  | next
  | goto_end
deriving DecidableEq, Repr

/-- The loop `while (ret >= 0)` of lines 103-118, entered with the current
`ret` and `frames_saved`; gives the way it is left, `frames_saved`, and the
calls made. -/
def receive_loop (c : AVCodes) : Int → Nat → List Int → Flow × Nat × List Ev
  | ret, frames_saved, [] =>
    if ret < 0 then (Flow.next, frames_saved, [])
    else (Flow.next, frames_saved, [Ev.avcodec_receive_frame c.EAGAIN])
  | ret, frames_saved, r :: rest =>
    if ret < 0 then (Flow.next, frames_saved, [])
    else if r = c.EAGAIN ∨ r = c.EOF then
      (Flow.next, frames_saved, [Ev.avcodec_receive_frame r])
    else if r < 0 then
      (Flow.goto_end, frames_saved,
        [Ev.avcodec_receive_frame r, Ev.av_log .error "Error during decoding\n" []])
    else if frames_saved < 5 then
      let res := receive_loop c r (frames_saved + 1) rest
      (res.1, res.2.1,
        Ev.avcodec_receive_frame r :: Ev.save_gray_frame (frames_saved : Int) :: res.2.2)
    else
      (Flow.goto_end, frames_saved, [Ev.avcodec_receive_frame r])

/-- The loop `while (av_read_frame(...) >= 0)` of lines 95-121, up to the
label `end`. -/
def read_loop (c : AVCodes) (video_stream_index : Int) : Nat → List Packet → List Ev
  | _, [] => [Ev.av_read_frame c.EOF]
  | frames_saved, p :: ps =>
    if p.stream_index = video_stream_index then
      let ret := p.send
      if ret < 0 then
        [Ev.av_read_frame 0, Ev.avcodec_send_packet ret,
         Ev.av_log .error "Error sending a packet for decoding\n" []]
      else
        let res := receive_loop c ret frames_saved p.recv
        match res.1 with
        | Flow.goto_end => [Ev.av_read_frame 0, Ev.avcodec_send_packet ret] ++ res.2.2
        | Flow.next =>
          [Ev.av_read_frame 0, Ev.avcodec_send_packet ret] ++ res.2.2 ++ [Ev.av_packet_unref]
            ++ read_loop c video_stream_index res.2.1 ps
    else
      [Ev.av_read_frame 0, Ev.av_packet_unref] ++ read_loop c video_stream_index frames_saved ps

/-- The function `main` of `simple_decoder.c`.  The program does not check
the results of `avcodec_alloc_context3`, `av_packet_alloc` and `av_frame_alloc`
(lines 76, 91, 92) and goes on to use the pointers (`packet->stream_index` at
line 96, `frame->width` at line 22).  This function gives the run of the
program when the three pointers are non-NULL, which `setup_ok` requires; for a
NULL pointer it lists the calls of the source text, while the C program has no
defined behaviour from the first dereference on. -/
def main (c : AVCodes) (argv0 : String) (args : List String) (env : Env) : Int × List Ev :=
  match args with
  | [] => (-1, [Ev.printf ("Usage: " ++ argv0 ++ " <input_file>\n")])
  | input_filename :: _ =>
    let t1 := [Ev.av_log_set_level, Ev.avformat_open_input input_filename env.open_input]
    if env.open_input < 0 then
      (-1, t1 ++ [Ev.av_log .error "Cannot open input file\n" []])
    else
    let t2 := t1 ++ [Ev.avformat_find_stream_info env.find_stream_info]
    if env.find_stream_info < 0 then
      (-1, t2 ++ [Ev.av_log .error "Failed to find stream information\n" [],
                  Ev.avformat_close_input])
    else
    let t3 := t2 ++ [Ev.av_dump_format, Ev.av_find_best_stream env.find_best_stream]
    let video_stream_index := env.find_best_stream
    if video_stream_index < 0 then
      (-1, t3 ++ [Ev.av_log .error "No video stream found\n" [], Ev.avformat_close_input])
    else
    let t4 := t3 ++ [Ev.avcodec_find_decoder env.find_decoder]
    if !env.find_decoder then
      (-1, t4 ++ [Ev.av_log .error "Unsupported codec!\n" [], Ev.avformat_close_input])
    else
    let t5 := t4 ++ [Ev.avcodec_alloc_context3 env.alloc_context3,
                     Ev.avcodec_parameters_to_context env.parameters_to_context]
    if env.parameters_to_context < 0 then
      (-1, t5 ++ [Ev.av_log .error "Failed to copy codec parameters to context\n" [],
                  Ev.avcodec_free_context, Ev.avformat_close_input])
    else
    let t6 := t5 ++ [Ev.avcodec_open2 env.open2]
    if env.open2 < 0 then
      (-1, t6 ++ [Ev.av_log .error "Failed to open codec\n" [],
                  Ev.avcodec_free_context, Ev.avformat_close_input])
    else
      (0, t6 ++ [Ev.av_packet_alloc env.packet_alloc, Ev.av_frame_alloc env.frame_alloc]
            ++ read_loop c video_stream_index 0 env.packets
            ++ [Ev.av_packet_free, Ev.av_frame_free, Ev.avcodec_close,
                Ev.avcodec_free_context, Ev.avformat_close_input])

/-- The frame numbers of the calls of `save_gray_frame` in a run, in order. -/
def saved (t : List Ev) : List Int :=
  t.filterMap (fun e => match e with
    | Ev.save_gray_frame n => some n
    | _ => none)

/-- The frames the decoder yields for one packet: the results of
`avcodec_receive_frame` up to the first negative one. -/
def frames_of (p : Packet) : Nat := (p.recv.takeWhile (fun r => decide (0 ≤ r))).length

/-- The frames the decoder yields over the packets of the selected stream. -/
def frames_total (video_stream_index : Int) : List Packet → Nat
  | [] => 0
  | p :: ps =>
    (if p.stream_index = video_stream_index then frames_of p else 0)
      + frames_total video_stream_index ps

/-- No call of `avcodec_send_packet` or `avcodec_receive_frame` on a packet of
the selected stream fails: a negative result is one of the two codes that only
say "no frame now". -/
def decode_ok (c : AVCodes) (video_stream_index : Int) (ps : List Packet) : Prop :=
  ∀ p ∈ ps, p.stream_index = video_stream_index →
    0 ≤ p.send ∧ ∀ r ∈ p.recv, 0 ≤ r ∨ r = c.EAGAIN ∨ r = c.EOF

/-- The set-up calls of the decoder all succeed, the three allocations
included. -/
def setup_ok (env : Env) : Prop :=
  0 ≤ env.open_input ∧ 0 ≤ env.find_stream_info ∧ 0 ≤ env.find_best_stream ∧
  env.find_decoder = true ∧ env.alloc_context3 = true ∧
  0 ≤ env.parameters_to_context ∧ 0 ≤ env.open2 ∧
  env.packet_alloc = true ∧ env.frame_alloc = true

end simple_decoder

namespace simple_encoder

/-- The constant `filename` of `main`. -/
def filename : String := "test.mp4"

/-- The constant `width` of `main`. -/
def width : Nat := 640

/-- The constant `height` of `main`. -/
def height : Nat := 480

/-- The constant `frame_rate` of `main`. -/
def frame_rate : Nat := 25

/-- The constant `total_frames` of `main`. -/
def total_frames : Nat := 200

/-- Results of one round of the drain loop of `encode_write_frame`: whether
`av_packet_alloc` gave a packet, the result of `avcodec_receive_packet` and the
packet it delivered (an identifier), and the result of
`av_interleaved_write_frame`. -/
structure PktStep where
  alloc : Bool
  recv : Int
  pkt : Nat
  write : Int
deriving DecidableEq, Repr

/-- Results of the framework calls of one call of `encode_write_frame`: the
result of `avcodec_send_frame` and the rounds of the drain loop.  Once `steps`
is used up, `av_packet_alloc` gives a packet and the encoder answers
`AVERROR(EAGAIN)`. -/
structure EncCall where
  send : Int
  steps : List PktStep
deriving DecidableEq, Repr

/-- The `return` statement through which `encode_write_frame` is left, by
source line: 14, 19, 25 (with the code received), 29, 41, 44. -/
inductive Exit
  | send_failed
  | alloc_failed
  | no_output (code : Int)
  | receive_failed
  | write_failed
  | loop_end
deriving DecidableEq, Repr

/-- The loop `while (ret >= 0)` of `encode_write_frame` (lines 17-44), entered
with the current `ret`. -/
def drain (c : AVCodes) : Int → List PktStep → Int × Exit × List Ev
  | ret, [] =>
    if ret < 0 then (ret, Exit.loop_end, [])
    else
      let ret := c.EAGAIN
      (if ret = c.EOF then 1 else 0, Exit.no_output ret,
        [Ev.av_packet_alloc true, Ev.avcodec_receive_packet ret 0, Ev.av_packet_free])
  | ret, s :: rest =>
    if ret < 0 then (ret, Exit.loop_end, [])
    else if !s.alloc then (c.ENOMEM, Exit.alloc_failed, [Ev.av_packet_alloc false])
    else
      let ret := s.recv
      if ret = c.EAGAIN ∨ ret = c.EOF then
        (if ret = c.EOF then 1 else 0, Exit.no_output ret,
          [Ev.av_packet_alloc true, Ev.avcodec_receive_packet ret s.pkt, Ev.av_packet_free])
      else if ret < 0 then
        (ret, Exit.receive_failed,
          [Ev.av_packet_alloc true, Ev.avcodec_receive_packet ret s.pkt,
           Ev.av_log .error "Error during encoding\n" [], Ev.av_packet_free])
      else
        let t := [Ev.av_packet_alloc true, Ev.avcodec_receive_packet ret s.pkt,
                  Ev.av_packet_rescale_ts, Ev.av_interleaved_write_frame s.pkt 0 s.write,
                  Ev.av_packet_free]
        let ret := s.write
        if ret < 0 then
          (ret, Exit.write_failed,
            t ++ [Ev.av_log .error "Error while writing output packet\n" []])
        else
          let res := drain c ret rest
          (res.1, res.2.1, t ++ res.2.2)

/-- The function `encode_write_frame`; `pts` is the time stamp of the frame
passed, `none` for a NULL frame. -/
def encode_write_frame (c : AVCodes) (pts : Option Int) (call : EncCall) :
    Int × Exit × List Ev :=
  let ret := call.send
  if ret < 0 then
    (ret, Exit.send_failed,
      [Ev.avcodec_send_frame pts ret,
       Ev.av_log .error "Error sending a frame for encoding\n" []])
  else
    let res := drain c ret call.steps
    (res.1, res.2.1, Ev.avcodec_send_frame pts ret :: res.2.2)

/-- Results of the framework calls of one round of the encoding loop. -/
structure Iter where
  make_writable : Int
  call : EncCall
deriving DecidableEq, Repr

/-- Results of the framework calls of `simple_encoder`, and the two values
the C program reads without having written them: `ret_uninit` is what `ret`
holds before its first assignment, `frame_uninit` tells whether `frame` holds a
non-NULL value when the label `end` is reached by a `goto` that jumped over its
declaration at line 133.  `nofile` is the flag `AVFMT_NOFILE` of the output
format, `codec_is_h264` the test of line 99, `iters i` the results of round
`i` of the encoding loop. -/
structure Env where
  ret_uninit : Int
  frame_uninit : Bool
  alloc_output_context2 : Bool
  nofile : Bool
  find_encoder_by_name : Bool
  codec_is_h264 : Bool
  new_stream : Bool
  alloc_context3 : Bool
  open2 : Int
  parameters_from_context : Int
  avio_open : Int
  write_header : Int
  frame_alloc : Bool
  frame_get_buffer : Int
  iters : Nat → Iter
  flush : EncCall
  write_trailer : Int

/-- The code after the label `end` (lines 180-190), for the current values of
`frame`, `codec_ctx`, `fmt_ctx` (`true` for non-NULL) and `ret`. -/
def cleanup (env : Env) (frame codec_ctx fmt_ctx : Bool) (ret : Int) : Int × List Ev :=
  (if ret < 0 then 1 else 0,
    (if frame then [Ev.av_frame_free] else [])
      ++ (if codec_ctx then [Ev.avcodec_free_context] else [])
      ++ (if fmt_ctx then
            (if !env.nofile then [Ev.avio_closep] else []) ++ [Ev.avformat_free_context]
          else []))

/-- The encoding loop of lines 147-171: `n` rounds remain and the loop
variable is `i`.  The pixels written in lines 153-164 are those of
`synthesize`; they do not influence the control flow. -/
def encode_loop (c : AVCodes) (env : Env) : Nat → Nat → List Ev
  | 0, _ => []
  | n + 1, i =>
    let it := env.iters i
    if it.make_writable < 0 then [Ev.av_frame_make_writable it.make_writable]
    else
      let res := encode_write_frame c (some (i : Int)) it.call
      if res.1 < 0 then Ev.av_frame_make_writable it.make_writable :: res.2.2
      else Ev.av_frame_make_writable it.make_writable :: res.2.2 ++ encode_loop c env n (i + 1)

/-- The function `main` of `simple_encoder.c`. -/
def main (c : AVCodes) (env : Env) : Int × List Ev :=
  let ret := env.ret_uninit
  let t1 := [Ev.av_log_set_level,
             Ev.avformat_alloc_output_context2 filename env.alloc_output_context2]
  if !env.alloc_output_context2 then
    (-1, t1 ++ [Ev.av_log .error "Could not create output context\n" []])
  else
  let t2 := t1 ++ [Ev.avcodec_find_encoder_by_name "libx264" env.find_encoder_by_name]
  if !env.find_encoder_by_name then
    let e := cleanup env env.frame_uninit false true ret
    (e.1, t2 ++ [Ev.av_log .error "Codec 'libx264' not found\n" []] ++ e.2)
  else
  let t3 := t2 ++ [Ev.avformat_new_stream env.new_stream]
  if !env.new_stream then
    let e := cleanup env env.frame_uninit false true ret
    (e.1, t3 ++ [Ev.av_log .error "Failed allocating output stream\n" []] ++ e.2)
  else
  let t4 := t3 ++ [Ev.avcodec_alloc_context3 env.alloc_context3]
  if !env.alloc_context3 then
    let e := cleanup env env.frame_uninit false true ret
    (e.1, t4 ++ [Ev.av_log .error "Could not alloc an encoding context\n" []] ++ e.2)
  else
  let t5 := t4
    ++ [Ev.codec_ctx_assign
          { width := width, height := height,
            time_base_num := 1, time_base_den := frame_rate,
            framerate_num := frame_rate, framerate_den := 1,
            gop_size := 12, max_b_frames := 1 }]
    ++ (if env.codec_is_h264 then [Ev.av_opt_set "preset" "slow"] else [])
    ++ [Ev.avcodec_open2 env.open2]
  let ret := env.open2
  if ret < 0 then
    let e := cleanup env env.frame_uninit true true ret
    (e.1, t5 ++ [Ev.av_log .error "Cannot open video encoder\n" []] ++ e.2)
  else
  let t6 := t5 ++ [Ev.avcodec_parameters_from_context env.parameters_from_context]
  let ret := env.parameters_from_context
  if ret < 0 then
    let e := cleanup env env.frame_uninit true true ret
    (e.1, t6 ++ [Ev.av_log .error "Failed to copy encoder parameters to stream\n" []] ++ e.2)
  else
  let t7 := t6 ++ [Ev.av_dump_format]
    ++ (if !env.nofile then [Ev.avio_open filename env.avio_open] else [])
  let ret := if !env.nofile then env.avio_open else ret
  if !env.nofile ∧ ret < 0 then
    let e := cleanup env env.frame_uninit true true ret
    (e.1, t7 ++ [Ev.av_log .error "Could not open output file '%s'\n" [filename]] ++ e.2)
  else
  let t8 := t7 ++ [Ev.avformat_write_header env.write_header]
  let ret := env.write_header
  if ret < 0 then
    let e := cleanup env env.frame_uninit true true ret
    (e.1, t8 ++ [Ev.av_log .error "Error occurred when opening output file\n" []] ++ e.2)
  else
  let t9 := t8 ++ [Ev.av_frame_alloc env.frame_alloc]
  if !env.frame_alloc then
    let e := cleanup env false true true ret
    (e.1, t9 ++ [Ev.av_log .error "Could not allocate video frame\n" []] ++ e.2)
  else
  let t10 := t9 ++ [Ev.av_frame_get_buffer env.frame_get_buffer]
  let ret := env.frame_get_buffer
  if ret < 0 then
    let e := cleanup env true true true ret
    (e.1, t10 ++ [Ev.av_log .error "Could not allocate the video frame data\n" []] ++ e.2)
  else
    let e := cleanup env true true true ret
    (e.1, t10 ++ encode_loop c env total_frames 0
            ++ (encode_write_frame c none env.flush).2.2
            ++ [Ev.av_write_trailer env.write_trailer,
                Ev.av_log .info "Encode finished to %s\n" [filename]]
            ++ e.2)

/-- A store of the value of an `int` expression into the `uint8_t` at offset
`off` of a plane. -/
def store (mem : Int → Nat) (off : Int) (v : Int) : Int → Nat :=
  fun a => if a = off then (int32 v % 256).toNat else mem a

/-- The three planes of the frame, each addressed by the offset from its
`data[k]`. -/
structure Planes where
  d0 : Int → Nat
  d1 : Int → Nat
  d2 : Int → Nat

/-- The luma loops of lines 153-157 for frame `i`.  The index
`y * frame->linesize[0] + x` is an `int`. -/
def fill_luma (w h : Nat) (linesize0 : Int) (i : Nat) (d0 : Int → Nat) : Int → Nat :=
  (List.range h).foldl
    (fun (m : Int → Nat) (y : Nat) =>
      (List.range w).foldl
        (fun (m : Int → Nat) (x : Nat) =>
          store m (int32 ((y : Int) * linesize0 + (x : Int)))
            ((x : Int) + (y : Int) + (i : Int) * 3))
        m)
    d0

/-- The chroma loops of lines 159-164 for frame `i`, on the pair of planes
`data[1]`, `data[2]`.  The indices `y * frame->linesize[k] + x` are `int`s. -/
def fill_chroma (w h : Nat) (linesize1 linesize2 : Int) (i : Nat)
    (d : (Int → Nat) × (Int → Nat)) : (Int → Nat) × (Int → Nat) :=
  (List.range (h / 2)).foldl
    (fun (d : (Int → Nat) × (Int → Nat)) (y : Nat) =>
      (List.range (w / 2)).foldl
        (fun (d : (Int → Nat) × (Int → Nat)) (x : Nat) =>
          (store d.1 (int32 ((y : Int) * linesize1 + (x : Int)))
              (128 + (y : Int) + (i : Int) * 2),
           store d.2 (int32 ((y : Int) * linesize2 + (x : Int)))
              (64 + (x : Int) + (i : Int) * 5)))
        d)
    d

/-- The pixel synthesis of lines 153-164 for frame `i`, given the three
line sizes of the frame. -/
def synthesize (linesize0 linesize1 linesize2 : Int) (i : Nat) (p : Planes) : Planes :=
  let c := fill_chroma width height linesize1 linesize2 i (p.d1, p.d2)
  { d0 := fill_luma width height linesize0 i p.d0, d1 := c.1, d2 := c.2 }

end simple_encoder

namespace simple_decoder

/-- A sample input: a video packet yielding two frames, an audio packet, and a
video packet yielding four frames before the decoder reports end of stream. -/
def sample_env : Env :=
  { open_input := 0, find_stream_info := 0, find_best_stream := 0, find_decoder := true,
    alloc_context3 := true, parameters_to_context := 0, open2 := 0,
    packet_alloc := true, frame_alloc := true,
    packets := [{ stream_index := 0, send := 0, recv := [0, 0, -11] },
                { stream_index := 1, send := -22, recv := [-5] },
                { stream_index := 0, send := 0, recv := [0, 0, 0, 0, -541478725] }] }

end simple_decoder

namespace simple_decoder

/-- A sample frame: 2x2 pixels with a line of 4 bytes, whose byte at offset `a`
is `a` itself. -/
def sample_frame : AVFrame :=
  { width := 2, height := 2, linesize0 := 4, data0 := fun a => a.toNat }

/-- A frame of width 1 and height 3 whose line size is 2^30, so that the
offset of row 2 does not fit an `int`.  The byte at offset 2^31 is 200, the
byte at offset -2^31 is 100, every other byte is 0. -/
def wide_frame : AVFrame :=
  { width := 1, height := 3, linesize0 := 1073741824,
    data0 := fun a => if a = 2147483648 then 200 else if a = -2147483648 then 100 else 0 }

end simple_decoder

namespace simple_encoder

/-- Sample planes, all bytes zero. -/
def blank : Planes := { d0 := fun _ => 0, d1 := fun _ => 0, d2 := fun _ => 0 }

end simple_encoder

namespace simple_encoder

/-- A sample call: two packets are received and written, then the encoder
wants more input. -/
def sample_call : EncCall :=
  { send := 0,
    steps := [{ alloc := true, recv := 0, pkt := 7, write := 0 },
              { alloc := true, recv := 0, pkt := 8, write := 0 },
              { alloc := true, recv := -11, pkt := 0, write := 0 }] }

end simple_encoder

namespace simple_encoder

/-- The steps of a run that C3 speaks of: a call of `encode_write_frame`
(each call starts with its one `avcodec_send_frame`, whose frame has the given
`pts`, `none` for the NULL frame) and the call of `av_write_trailer`. -/
inductive Milestone
  | encode (pts : Option Int)
  | trailer
deriving DecidableEq, Repr

/-- The calls of `encode_write_frame` and `av_write_trailer` of a run, in
order. -/
def milestones (t : List Ev) : List Milestone :=
  t.filterMap (fun e => match e with
    | Ev.avcodec_send_frame pts _ => some (Milestone.encode pts)
    | Ev.av_write_trailer _ => some Milestone.trailer
    | _ => none)

/-- The configurations assigned to the encoder context in a run. -/
def configs (t : List Ev) : List CodecCfg :=
  t.filterMap (fun e => match e with
    | Ev.codec_ctx_assign cfg => some cfg
    | _ => none)

/-- Every framework call of one call of `encode_write_frame` succeeds: the
frame is accepted, every packet is allocated, and every round either receives
a packet that is then written, or ends the loop with one of the two "no
output" codes. -/
def call_ok (c : AVCodes) (call : EncCall) : Prop :=
  0 ≤ call.send ∧
  ∀ s ∈ call.steps, s.alloc = true ∧
    (s.recv = c.EAGAIN ∨ s.recv = c.EOF ∨ (0 ≤ s.recv ∧ 0 ≤ s.write))

/-- Every framework call of a run of `simple_encoder` succeeds. -/
def all_ok (c : AVCodes) (env : Env) : Prop :=
  env.alloc_output_context2 = true ∧ env.find_encoder_by_name = true ∧
  env.new_stream = true ∧ env.alloc_context3 = true ∧
  0 ≤ env.open2 ∧ 0 ≤ env.parameters_from_context ∧
  (env.nofile = false → 0 ≤ env.avio_open) ∧ 0 ≤ env.write_header ∧
  env.frame_alloc = true ∧ 0 ≤ env.frame_get_buffer ∧
  (∀ i, i < total_frames → 0 ≤ (env.iters i).make_writable ∧ call_ok c (env.iters i).call) ∧
  call_ok c env.flush ∧ 0 ≤ env.write_trailer

/-- A sample flush: one last packet, then end of stream. -/
def sample_flush : EncCall :=
  { send := 0,
    steps := [{ alloc := true, recv := 0, pkt := 9, write := 0 },
              { alloc := true, recv := -541478725, pkt := 0, write := 0 }] }

/-- A sample run in which every framework call succeeds. -/
def sample_env : Env :=
  { ret_uninit := 0, frame_uninit := false,
    alloc_output_context2 := true, nofile := false,
    find_encoder_by_name := true, codec_is_h264 := true,
    new_stream := true, alloc_context3 := true,
    open2 := 0, parameters_from_context := 0, avio_open := 0, write_header := 0,
    frame_alloc := true, frame_get_buffer := 0,
    iters := fun _ => { make_writable := 0, call := sample_call },
    flush := sample_flush, write_trailer := 0 }

end simple_encoder

namespace simple_decoder

/-- A run in which `avcodec_send_packet` fails with `AVERROR(EINVAL)` on the
first video packet. -/
def env_send_fails : Env :=
  { sample_env with packets := [{ stream_index := 0, send := -22, recv := [] }] }

end simple_decoder

namespace simple_encoder

/-- A run in which `avcodec_send_frame` fails with `AVERROR(EINVAL)` for the
first frame and every other call succeeds. -/
def env_send_fails : Env :=
  { sample_env with
    iters := fun _ => { make_writable := 0, call := { send := -22, steps := [] } } }

/-- A run in which `av_frame_make_writable` fails with `AVERROR(ENOMEM)` in the
first round and every other call succeeds. -/
def env_make_writable_fails : Env :=
  { sample_env with iters := fun _ => { make_writable := -12, call := sample_call } }

/-- A run in which the encoder `libx264` is not found, while the memory that
is to hold `frame` contains a non-zero value. -/
def env_codec_missing : Env :=
  { sample_env with find_encoder_by_name := false, frame_uninit := true }

end simple_encoder

/-! ## Helper lemmas on the decoder loops -/

theorem receive_loop_no_printf (c : AVCodes) (text : String) :
    ∀ (recv : List Int) (ret : Int) (k : Nat),
      Ev.printf text ∉ (simple_decoder.receive_loop c ret k recv).2.2 := by
  intro recv
  induction recv with
  | nil =>
    intro ret k
    unfold simple_decoder.receive_loop
    split <;> simp
  | cons r rest ih =>
    intro ret k
    unfold simple_decoder.receive_loop
    split
    · simp
    · split
      · simp
      · split
        · simp
        · split
          · simpa using ih r (k + 1)
          · simp

theorem read_loop_no_printf (c : AVCodes) (vsi : Int) (text : String) :
    ∀ (ps : List simple_decoder.Packet) (k : Nat),
      Ev.printf text ∉ simple_decoder.read_loop c vsi k ps := by
  intro ps
  induction ps with
  | nil => intro k; simp [simple_decoder.read_loop]
  | cons p ps ih =>
    intro k
    have h := receive_loop_no_printf c text p.recv p.send k
    simp only [simple_decoder.read_loop]
    split
    · split
      · simp
      · split
        · simpa using h
        · simp only [List.mem_append, not_or]
          exact ⟨⟨⟨by simp, h⟩, by simp⟩, ih _⟩
    · simp only [List.mem_append, not_or]
      exact ⟨by simp, ih _⟩

/-! ## media_info_reader and the usage branch -/

/-- C5: `media_info_reader` given an input path returns 0 exactly when both
`avformat_open_input` and `avformat_find_stream_info` return non-negative
codes, and then calls `av_dump_format` exactly once, before the one call that
closes the input; otherwise it returns the negative code of the first failing
call and never calls `av_dump_format`. -/
theorem C5_media_info_reader_result (argv0 path : String) (rest : List String)
    (env : media_info_reader.Env) :
    ((media_info_reader.main argv0 (path :: rest) env).1 = 0 ↔
        0 ≤ env.open_input ∧ 0 ≤ env.find_stream_info) ∧
    (0 ≤ env.open_input ∧ 0 ≤ env.find_stream_info →
        (media_info_reader.main argv0 (path :: rest) env).2.count Ev.av_dump_format = 1 ∧
        ∃ pre post, (media_info_reader.main argv0 (path :: rest) env).2
            = pre ++ Ev.av_dump_format :: Ev.avformat_close_input :: post ∧
          Ev.avformat_close_input ∉ pre ∧ Ev.avformat_close_input ∉ post) ∧
    (env.open_input < 0 →
        (media_info_reader.main argv0 (path :: rest) env).1 = env.open_input ∧
        Ev.av_dump_format ∉ (media_info_reader.main argv0 (path :: rest) env).2) ∧
    (0 ≤ env.open_input → env.find_stream_info < 0 →
        (media_info_reader.main argv0 (path :: rest) env).1 = env.find_stream_info ∧
        Ev.av_dump_format ∉ (media_info_reader.main argv0 (path :: rest) env).2) := by
  refine ⟨?_, ?_, ?_, ?_⟩
  · by_cases h1 : env.open_input < 0
    · simp only [media_info_reader.main, h1, if_true]
      constructor
      · intro h; omega
      · intro h; omega
    · by_cases h2 : env.find_stream_info < 0
      · simp only [media_info_reader.main, h1, h2, if_true, if_false]
        constructor
        · intro h; omega
        · intro h; omega
      · simp only [media_info_reader.main, h1, h2, if_false]
        constructor
        · intro _; omega
        · intro _; trivial
  · rintro ⟨h1, h2⟩
    have h1n : ¬ env.open_input < 0 := by omega
    have h2n : ¬ env.find_stream_info < 0 := by omega
    simp only [media_info_reader.main, h1n, h2n, if_false]
    refine ⟨by simp [List.count_cons], ?_⟩
    refine ⟨[Ev.av_log_set_level, Ev.avformat_open_input path env.open_input,
             Ev.av_log .info "Successfully opened file: %s\n" [path],
             Ev.avformat_find_stream_info env.find_stream_info,
             Ev.av_log .info "Stream information found.\n\n" []],
            [Ev.av_log .info "\nCleanup finished.\n" []], ?_, ?_, ?_⟩ <;> simp
  · intro h1
    simp [media_info_reader.main, h1]
  · intro h1 h2
    have h1n : ¬ env.open_input < 0 := by omega
    simp [media_info_reader.main, h1n, h2]

/-- C7: without a positional argument both `media_info_reader` and
`simple_decoder` print the usage line built from `argv[0]`, return -1, and do
nothing else (the run consists of the one `printf`); with a positional
argument no usage line is printed, and `avformat_open_input` is the first call
after `av_log_set_level`, with `argv[1]` as its path. -/
theorem C7_usage_branch (c : AVCodes) (argv0 : String)
    (env1 : media_info_reader.Env) (env2 : simple_decoder.Env) :
    media_info_reader.main argv0 [] env1
      = (-1, [Ev.printf ("Usage: " ++ argv0 ++ " <input_file>\n")]) ∧
    simple_decoder.main c argv0 [] env2
      = (-1, [Ev.printf ("Usage: " ++ argv0 ++ " <input_file>\n")]) ∧
    ∀ (path : String) (rest : List String),
      (∀ text, Ev.printf text ∉ (media_info_reader.main argv0 (path :: rest) env1).2) ∧
      (∃ tail, (media_info_reader.main argv0 (path :: rest) env1).2
          = Ev.av_log_set_level :: Ev.avformat_open_input path env1.open_input :: tail) ∧
      (∀ text, Ev.printf text ∉ (simple_decoder.main c argv0 (path :: rest) env2).2) ∧
      (∃ tail, (simple_decoder.main c argv0 (path :: rest) env2).2
          = Ev.av_log_set_level :: Ev.avformat_open_input path env2.open_input :: tail) := by
  refine ⟨rfl, rfl, ?_⟩
  intro path rest
  refine ⟨?_, ?_, ?_, ?_⟩
  · intro text
    simp only [media_info_reader.main]
    split <;> [simp; (split <;> simp)]
  · simp only [media_info_reader.main]
    split <;> [simp; (split <;> simp)]
  · intro text
    have h := read_loop_no_printf c env2.find_best_stream text env2.packets 0
    simp only [simple_decoder.main]
    repeat' split
    all_goals simp [h]
  · simp only [simple_decoder.main]
    repeat' split
    all_goals simp

/-! ## The decoder saves the first five frames -/

theorem saved_append (a b : List Ev) :
    simple_decoder.saved (a ++ b) = simple_decoder.saved a ++ simple_decoder.saved b := by
  simp [simple_decoder.saved, List.filterMap_append]

theorem receive_loop_saved (c : AVCodes) (hc : c.wf) :
    ∀ (recv : List Int) (ret : Int) (k : Nat), 0 ≤ ret → k ≤ 5 →
      (∀ r ∈ recv, 0 ≤ r ∨ r = c.EAGAIN ∨ r = c.EOF) →
      simple_decoder.saved (simple_decoder.receive_loop c ret k recv).2.2
        = (List.range' k
            (min 5 (k + (recv.takeWhile (fun r => decide (0 ≤ r))).length) - k)).map Int.ofNat ∧
      ((simple_decoder.receive_loop c ret k recv).1 = simple_decoder.Flow.next →
        (simple_decoder.receive_loop c ret k recv).2.1
            = k + (recv.takeWhile (fun r => decide (0 ≤ r))).length ∧
          k + (recv.takeWhile (fun r => decide (0 ≤ r))).length ≤ 5) ∧
      ((simple_decoder.receive_loop c ret k recv).1 = simple_decoder.Flow.goto_end →
        5 < k + (recv.takeWhile (fun r => decide (0 ≤ r))).length) := by
  obtain ⟨hA, hE, _, _⟩ := hc
  intro recv
  induction recv with
  | nil =>
    intro ret k hret hk _
    have hn : ¬ ret < 0 := by omega
    simp [simple_decoder.receive_loop, hn, simple_decoder.saved, hk]
  | cons r rest ih =>
    intro ret k hret hk hall
    have hn : ¬ ret < 0 := by omega
    have hr := hall r (List.mem_cons_self _ _)
    have hrest : ∀ x ∈ rest, 0 ≤ x ∨ x = c.EAGAIN ∨ x = c.EOF :=
      fun x hx => hall x (List.mem_cons_of_mem _ hx)
    by_cases hstop : r = c.EAGAIN ∨ r = c.EOF
    · have hneg : ¬ 0 ≤ r := by rcases hstop with h | h <;> omega
      simp [simple_decoder.receive_loop, hn, hstop, simple_decoder.saved, hneg, hk]
    · have hpos : 0 ≤ r := by
        rcases hr with h | h | h
        · exact h
        · exact absurd (Or.inl h) hstop
        · exact absurd (Or.inr h) hstop
      have hrn : ¬ r < 0 := by omega
      by_cases hk5 : k < 5
      · obtain ⟨i1, i2, i3⟩ := ih r (k + 1) hpos (by omega) hrest
        simp only [simple_decoder.receive_loop, hn, hstop, hrn, hk5, if_true, if_false,
          List.takeWhile_cons, hpos, decide_True, List.length_cons]
        refine ⟨?_, ?_, ?_⟩
        · have : simple_decoder.saved
              (Ev.avcodec_receive_frame r :: Ev.save_gray_frame (k : Int) ::
                (simple_decoder.receive_loop c r (k + 1) rest).2.2)
              = (k : Int) :: simple_decoder.saved
                  (simple_decoder.receive_loop c r (k + 1) rest).2.2 := by
            simp [simple_decoder.saved]
          rw [this, i1]
          have e : min 5 (k + ((rest.takeWhile (fun r => decide (0 ≤ r))).length + 1)) - k
              = (min 5 (k + 1 + (rest.takeWhile (fun r => decide (0 ≤ r))).length) - (k + 1)) + 1 := by
            omega
          rw [e, List.range'_succ]
          simp
        · intro h
          have := i2 h
          omega
        · intro h
          have := i3 h
          omega
      · have hk5e : k = 5 := by omega
        subst hk5e
        simp [simple_decoder.receive_loop, hn, hstop, hrn, simple_decoder.saved, hpos]

theorem read_loop_saved (c : AVCodes) (hc : c.wf) (vsi : Int) :
    ∀ (ps : List simple_decoder.Packet) (k : Nat), k ≤ 5 →
      simple_decoder.decode_ok c vsi ps →
      simple_decoder.saved (simple_decoder.read_loop c vsi k ps)
        = (List.range' k
            (min 5 (k + simple_decoder.frames_total vsi ps) - k)).map Int.ofNat := by
  intro ps
  induction ps with
  | nil =>
    intro k hk _
    simp [simple_decoder.read_loop, simple_decoder.saved, simple_decoder.frames_total, hk]
  | cons p ps ih =>
    intro k hk hok
    have hps : simple_decoder.decode_ok c vsi ps :=
      fun q hq => hok q (List.mem_cons_of_mem _ hq)
    by_cases hv : p.stream_index = vsi
    · obtain ⟨hsend, hrecv⟩ := hok p (List.mem_cons_self _ _) hv
      have hn : ¬ p.send < 0 := by omega
      obtain ⟨i1, i2, i3⟩ := receive_loop_saved c hc p.recv p.send k hsend hk hrecv
      simp only [simple_decoder.read_loop, hv, if_true, hn, if_false,
        simple_decoder.frames_total, simple_decoder.frames_of]
      cases hflow : (simple_decoder.receive_loop c p.send k p.recv).1 with
      | goto_end =>
        have h5 := i3 hflow
        simp only [saved_append, i1]
        have e1 : simple_decoder.saved [Ev.av_read_frame 0, Ev.avcodec_send_packet p.send] = [] := by
          simp [simple_decoder.saved]
        rw [e1, List.nil_append]
        congr 2
        omega
      | next =>
        obtain ⟨hfs, hle⟩ := i2 hflow
        simp only [saved_append, i1, hfs, ih _ hle hps]
        have e1 : simple_decoder.saved [Ev.av_read_frame 0, Ev.avcodec_send_packet p.send] = [] := by
          simp [simple_decoder.saved]
        have e2 : simple_decoder.saved [Ev.av_packet_unref] = [] := by
          simp [simple_decoder.saved]
        rw [e1, e2, List.nil_append, List.append_nil, ← List.map_append]
        congr 1
        have a1 : min 5 (k + (p.recv.takeWhile (fun r => decide (0 ≤ r))).length) - k
            = (p.recv.takeWhile (fun r => decide (0 ≤ r))).length := by omega
        rw [a1, List.range'_append_1]
        congr 1
        omega
    · simp only [simple_decoder.read_loop, hv, if_false, simple_decoder.frames_total,
        saved_append, ih k hk hps]
      have e1 : simple_decoder.saved [Ev.av_read_frame 0, Ev.av_packet_unref] = [] := by
        simp [simple_decoder.saved]
      rw [e1, List.nil_append, Nat.zero_add]

/-- C2: when the set-up calls (the allocations included) and every `avcodec_send_packet` /
`avcodec_receive_frame` call succeed and the decoder yields `n` frames over the
packets of the selected video stream, `simple_decoder` returns 0 and calls
`save_gray_frame` exactly `min 5 n` times, with the frame numbers
`0, 1, ..., min 5 n - 1` in this order, that is for the files `frame-0.pgm`,
`frame-1.pgm`, ... -/
theorem C2_decoder_saves_first_five (c : AVCodes) (argv0 path : String)
    (rest : List String) (env : simple_decoder.Env) (hc : c.wf)
    (hs : simple_decoder.setup_ok env)
    (hd : simple_decoder.decode_ok c env.find_best_stream env.packets) :
    (simple_decoder.main c argv0 (path :: rest) env).1 = 0 ∧
    simple_decoder.saved (simple_decoder.main c argv0 (path :: rest) env).2
      = (List.range (min 5 (simple_decoder.frames_total env.find_best_stream env.packets))).map
          Int.ofNat ∧
    (simple_decoder.saved (simple_decoder.main c argv0 (path :: rest) env).2).map
        simple_decoder.pgm_filename
      = (List.range (min 5 (simple_decoder.frames_total env.find_best_stream env.packets))).map
          (fun k => "frame-" ++ toString k ++ ".pgm") := by
  obtain ⟨h1, h2, h3, h4, _, h5, h6, _, _⟩ := hs
  have n1 : ¬ env.open_input < 0 := by omega
  have n2 : ¬ env.find_stream_info < 0 := by omega
  have n3 : ¬ env.find_best_stream < 0 := by omega
  have n5 : ¬ env.parameters_to_context < 0 := by omega
  have n6 : ¬ env.open2 < 0 := by omega
  have hloop := read_loop_saved c hc env.find_best_stream env.packets 0 (by omega) hd
  have hsaved : simple_decoder.saved (simple_decoder.main c argv0 (path :: rest) env).2
      = (List.range (min 5 (simple_decoder.frames_total env.find_best_stream env.packets))).map
          Int.ofNat := by
    simp only [Nat.zero_add, Nat.sub_zero] at hloop
    simp only [simple_decoder.main, n1, n2, n3, h4, n5, n6, if_false, Bool.not_true,
      Bool.false_eq_true, saved_append, hloop]
    simp [simple_decoder.saved, List.range_eq_range']
  refine ⟨?_, hsaved, ?_⟩
  · simp [simple_decoder.main, n1, n2, n3, h4, n5, n6]
  · rw [hsaved, List.map_map]
    rfl

/-- Witness for C2 on `sample_env`, which yields six frames: frames 0 to 4 are
saved and the run returns 0. -/
theorem C2_decoder_saves_first_five_witness :
    linuxCodes.wf ∧ simple_decoder.setup_ok simple_decoder.sample_env ∧
    simple_decoder.frames_total 0 simple_decoder.sample_env.packets = 6 ∧
    (simple_decoder.main linuxCodes "simple_decoder" ["in.mp4"] simple_decoder.sample_env).1 = 0 ∧
    simple_decoder.saved
      (simple_decoder.main linuxCodes "simple_decoder" ["in.mp4"] simple_decoder.sample_env).2
      = [0, 1, 2, 3, 4] := by
  have hc : linuxCodes.wf := by decide
  have hs : simple_decoder.setup_ok simple_decoder.sample_env := by
    unfold simple_decoder.setup_ok; decide
  have hd : simple_decoder.decode_ok linuxCodes
      simple_decoder.sample_env.find_best_stream simple_decoder.sample_env.packets := by
    unfold simple_decoder.decode_ok; decide
  have h := C2_decoder_saves_first_five linuxCodes "simple_decoder" "in.mp4" []
    simple_decoder.sample_env hc hs hd
  have hn : simple_decoder.frames_total 0 simple_decoder.sample_env.packets = 6 := by decide
  refine ⟨hc, hs, hn, h.1, ?_⟩
  rw [h.2.1]
  decide

/-! ## The file written by `save_gray_frame` -/

theorem foldl_append_flatMap {α : Type} (f : Nat → List α) :
    ∀ (l : List Nat) (out : List α),
      l.foldl (fun (acc : List α) (y : Nat) => acc ++ f y) out = out ++ l.flatMap f := by
  intro l
  induction l with
  | nil => intro out; simp
  | cons y l ih => intro out; simp [ih, List.append_assoc]

theorem length_flatMap_rows {α : Type} (f : Nat → List α) (w : Nat)
    (hf : ∀ y, (f y).length = w) :
    ∀ h : Nat, ((List.range h).flatMap f).length = w * h := by
  intro h
  induction h with
  | zero => simp
  | succ h ih =>
    rw [List.range_succ, List.flatMap_def, List.map_append, List.flatten_append,
      List.length_append, ← List.flatMap_def, ih]
    simp [hf, Nat.mul_succ]

theorem size_t_of_int_eq (v : Int) (h0 : 0 ≤ v) (h1 : v ≤ INT_MAX) :
    simple_decoder.size_t_of_int v = v.toNat := by
  unfold simple_decoder.size_t_of_int
  unfold INT_MAX at h1
  rw [Int.emod_eq_of_lt h0 (by omega)]

theorem toString_int_of_nonneg (v : Int) (h0 : 0 ≤ v) : toString v = Nat.repr v.toNat := by
  obtain ⟨n, rfl⟩ := Int.eq_ofNat_of_zero_le h0
  rfl

theorem getElem?_flatMap_rows {α : Type} (f : Nat → List α) (w : Nat)
    (hf : ∀ y, (f y).length = w) :
    ∀ (h k : Nat), k < w * h → ((List.range h).flatMap f)[k]? = (f (k / w))[k % w]? := by
  intro h
  induction h with
  | zero => intro k hk; simp at hk
  | succ h ih =>
    intro k hk
    have hw : 0 < w := by
      rcases Nat.eq_zero_or_pos w with h0 | h0
      · subst h0; simp at hk
      · exact h0
    have hlen := length_flatMap_rows f w hf h
    rw [List.range_succ, List.flatMap_def, List.map_append, List.flatten_append,
      ← List.flatMap_def]
    by_cases hlt : k < w * h
    · rw [List.getElem?_append_left (by omega)]
      exact ih k hlt
    · have hge : w * h ≤ k := by omega
      rw [List.getElem?_append_right (by omega), hlen]
      have hk2 : k < w * h + w := by rw [Nat.mul_succ] at hk; exact hk
      have hdiv : k / w = h := by
        apply Nat.div_eq_of_lt_le
        · rw [Nat.mul_comm]; exact hge
        · rw [Nat.succ_mul, Nat.mul_comm]; exact hk2
      have hmod : k % w = k - w * h := by
        have := Nat.div_add_mod k w
        rw [hdiv] at this
        omega
      simp [hdiv, hmod]

theorem int32_eq_self (v : Int) (h0 : -2147483648 ≤ v) (h1 : v ≤ 2147483647) :
    int32 v = v := by
  unfold int32
  omega

theorem int32_range (v : Int) : -2147483648 ≤ int32 v ∧ int32 v ≤ 2147483647 := by
  unfold int32
  omega

theorem int32_mod_256 (v : Int) : int32 v % 256 = v % 256 := by
  unfold int32
  omega

theorem rows_int32_eq (frame : simple_decoder.AVFrame) (n : Nat)
    (hh : 0 ≤ frame.height) (hL : 0 ≤ frame.linesize0)
    (hrow : (frame.height - 1) * frame.linesize0 ≤ INT_MAX) :
    (List.range frame.height.toNat).flatMap (fun (y : Nat) =>
        simple_decoder.fwrite frame.data0 (int32 ((y : Int) * frame.linesize0)) n)
      = (List.range frame.height.toNat).flatMap (fun (y : Nat) =>
          (List.range n).map
            (fun (x : Nat) => frame.data0 ((y : Int) * frame.linesize0 + (x : Int)))) := by
  simp only [List.flatMap_def]
  congr 1
  apply List.map_congr_left
  intro y hy
  rw [List.mem_range] at hy
  have hyh : (y : Int) ≤ frame.height - 1 := by
    have : ((frame.height.toNat : Nat) : Int) = frame.height := Int.toNat_of_nonneg hh
    omega
  have h0 : (0 : Int) ≤ (y : Int) * frame.linesize0 := mul_nonneg (by omega) hL
  have h1 : (y : Int) * frame.linesize0 ≤ (frame.height - 1) * frame.linesize0 :=
    Int.mul_le_mul_of_nonneg_right hyh hL
  have h2 : (y : Int) * frame.linesize0 ≤ 2147483647 := by
    unfold INT_MAX at hrow
    omega
  rw [int32_eq_self _ (by omega) h2]
  rfl

/-- C8, amended: for a frame (its fields being C `int`s) of width `w ≥ 0`,
height `h ≥ 0` and luma line size `L ≥ w` whose last row offset fits an
`int`, `(h-1)*L ≤ INT_MAX`, when
the output file opens, `save_gray_frame` writes the file
`frame-<n>.pgm` whose bytes are the ASCII header `P5\n<w> <h>\n255\n` (decimal
`w`, `h`) followed by the rows `y = 0 .. h-1`, row `y` being the `w` bytes at
offsets `y*L .. y*L + w - 1` of plane 0; the payload has `w*h` bytes, and its
byte number `k` is the one at offset `(k / w) * L + k % w`, never a padding
byte of a row. -/
theorem C8_save_gray_frame_bytes (frame : simple_decoder.AVFrame) (frame_num : Int)
    (hty : frame.fields_are_int) (hw : 0 ≤ frame.width)
    (hh : 0 ≤ frame.height) (hL : frame.width ≤ frame.linesize0)
    (hrow : (frame.height - 1) * frame.linesize0 ≤ INT_MAX) :
    ∃ payload : List Nat,
      (simple_decoder.save_gray_frame true frame frame_num).file
        = some (simple_decoder.pgm_filename frame_num,
            simple_decoder.ascii
              ("P5\n" ++ Nat.repr frame.width.toNat ++ " " ++ Nat.repr frame.height.toNat
                ++ "\n255\n") ++ payload) ∧
      payload = (List.range frame.height.toNat).flatMap (fun (y : Nat) =>
          (List.range frame.width.toNat).map
            (fun (x : Nat) => frame.data0 ((y : Int) * frame.linesize0 + (x : Int)))) ∧
      payload.length = frame.width.toNat * frame.height.toNat ∧
      ∀ k, k < payload.length →
        (k % frame.width.toNat : Int) < frame.width ∧
        (k % frame.width.toNat : Int) < frame.linesize0 ∧
        payload[k]? = some (frame.data0
          (((k / frame.width.toNat : Nat) : Int) * frame.linesize0
            + ((k % frame.width.toNat : Nat) : Int))) := by
  have hwmax : frame.width ≤ INT_MAX := hty.1.2
  have hlenrow : ∀ y : Nat, ((List.range frame.width.toNat).map
      (fun (x : Nat) => frame.data0 ((y : Int) * frame.linesize0 + (x : Int)))).length
        = frame.width.toNat := by
    intro y; simp
  refine ⟨_, ?_, rfl, ?_, ?_⟩
  · simp only [simple_decoder.save_gray_frame, simple_decoder.write_rows,
      Bool.not_true, Bool.false_eq_true, if_false,
      size_t_of_int_eq frame.width hw hwmax, foldl_append_flatMap,
      toString_int_of_nonneg frame.width hw, toString_int_of_nonneg frame.height hh,
      rows_int32_eq frame frame.width.toNat hh (by omega) hrow]
  · exact length_flatMap_rows _ _ hlenrow _
  · intro k hk
    rw [length_flatMap_rows _ _ hlenrow] at hk
    have hwpos : 0 < frame.width.toNat := by
      rcases Nat.eq_zero_or_pos frame.width.toNat with h0 | h0
      · rw [h0] at hk; simp at hk
      · exact h0
    have hm : k % frame.width.toNat < frame.width.toNat := Nat.mod_lt _ hwpos
    have hcast : ((k % frame.width.toNat : Nat) : Int) < frame.width := by
      have : ((frame.width.toNat : Nat) : Int) = frame.width := Int.toNat_of_nonneg hw
      omega
    refine ⟨by exact_mod_cast hcast, by have := hcast; push_cast at this ⊢; omega, ?_⟩
    rw [getElem?_flatMap_rows _ _ hlenrow _ k hk]
    simp [List.getElem?_map, List.getElem?_range hm]

/-- Witness for C8 on `sample_frame`: the header `P5\n2 2\n255\n` is followed
by the bytes at offsets 0, 1, 4, 5. -/
theorem C8_save_gray_frame_bytes_witness :
    simple_decoder.sample_frame.fields_are_int ∧
    (0 : Int) ≤ simple_decoder.sample_frame.width ∧
    (0 : Int) ≤ simple_decoder.sample_frame.height ∧
    simple_decoder.sample_frame.width ≤ simple_decoder.sample_frame.linesize0 ∧
    (simple_decoder.sample_frame.height - 1) * simple_decoder.sample_frame.linesize0
      ≤ INT_MAX ∧
    (simple_decoder.save_gray_frame true simple_decoder.sample_frame 3).file
      = some ("frame-3.pgm", [80, 53, 10, 50, 32, 50, 10, 50, 53, 53, 10, 0, 1, 4, 5]) := by
  have hw : (0 : Int) ≤ simple_decoder.sample_frame.width := by decide
  have hty : simple_decoder.sample_frame.fields_are_int := by
    unfold simple_decoder.AVFrame.fields_are_int; decide
  have hh : (0 : Int) ≤ simple_decoder.sample_frame.height := by decide
  have hL : simple_decoder.sample_frame.width ≤ simple_decoder.sample_frame.linesize0 := by
    decide
  have hrow : (simple_decoder.sample_frame.height - 1) * simple_decoder.sample_frame.linesize0
      ≤ INT_MAX := by decide
  obtain ⟨payload, h1, h2, _, _⟩ :=
    C8_save_gray_frame_bytes simple_decoder.sample_frame 3 hty hw hh hL hrow
  refine ⟨hty, hw, hh, hL, hrow, ?_⟩
  rw [h1, h2]
  decide

/-- C8 as stated fails on `wide_frame` (width 1, height 3, line size 2^30, all
within the stated conditions): the claim asks for the bytes at offsets 0, 2^30
and 2^31, that is 0, 0, 200, while `save_gray_frame` computes the offset of row
2 as the `int` -2^31 and writes 0, 0, 100. -/
theorem C8_counterexample_row_offset_wraps :
    simple_decoder.wide_frame.fields_are_int ∧
    (0 : Int) ≤ simple_decoder.wide_frame.width ∧
    (0 : Int) ≤ simple_decoder.wide_frame.height ∧
    simple_decoder.wide_frame.width ≤ simple_decoder.wide_frame.linesize0 ∧
    (List.range simple_decoder.wide_frame.height.toNat).flatMap (fun (y : Nat) =>
        (List.range simple_decoder.wide_frame.width.toNat).map
          (fun (x : Nat) => simple_decoder.wide_frame.data0
            ((y : Int) * simple_decoder.wide_frame.linesize0 + (x : Int))))
      = [0, 0, 200] ∧
    (simple_decoder.save_gray_frame true simple_decoder.wide_frame 0).file
      = some ("frame-0.pgm",
          simple_decoder.ascii "P5\n1 3\n255\n" ++ [0, 0, 100]) := by
  refine ⟨?_, by decide, by decide, by decide, by decide, by decide⟩
  unfold simple_decoder.AVFrame.fields_are_int
  decide

/-! ## Pixel synthesis of the encoder -/

theorem store_apply (m : Int → Nat) (off v a : Int) :
    simple_encoder.store m off v a = if a = off then (v % 256).toNat else m a := by
  unfold simple_encoder.store
  rw [int32_mod_256]

theorem foldl_range_congr {β : Type} (f g : β → Nat → β) :
    ∀ n : Nat, (∀ b k, k < n → f b k = g b k) →
      ∀ b, (List.range n).foldl f b = (List.range n).foldl g b := by
  intro n
  induction n with
  | zero => intro _ b; simp
  | succ n ih =>
    intro h b
    rw [List.range_succ, List.foldl_append, List.foldl_append, List.foldl_cons,
      List.foldl_cons, List.foldl_nil, List.foldl_nil,
      ih (fun b k hk => h b k (by omega)) b, h _ n (by omega)]

theorem foldl_range_preserve {β : Type} (P : β → Prop) (f : β → Nat → β)
    (hf : ∀ b k, P b → P (f b k)) :
    ∀ (n : Nat) (b : β), P b → P ((List.range n).foldl f b) := by
  intro n
  induction n with
  | zero => intro b hb; simpa using hb
  | succ n ih =>
    intro b hb
    rw [List.range_succ, List.foldl_append, List.foldl_cons, List.foldl_nil]
    exact hf _ _ (ih b hb)

theorem luma_row_apply (b : Int) (i y : Nat) :
    ∀ (w : Nat) (m : Int → Nat) (a : Int),
      ((List.range w).foldl
        (fun (m : Int → Nat) (x : Nat) =>
          simple_encoder.store m (b + (x : Int)) ((x : Int) + (y : Int) + (i : Int) * 3)) m) a
        = if b ≤ a ∧ a < b + (w : Int)
          then (((a - b) + (y : Int) + (i : Int) * 3) % 256).toNat else m a := by
  intro w
  induction w with
  | zero =>
    intro m a
    have : ¬ (b ≤ a ∧ a < b) := by omega
    simp [this]
  | succ w ih =>
    intro m a
    rw [List.range_succ, List.foldl_append, List.foldl_cons, List.foldl_nil, store_apply]
    by_cases ha : a = b + (w : Int)
    · subst ha
      have hc : b ≤ b + (w : Int) ∧ b + (w : Int) < b + ((w + 1 : Nat) : Int) := by
        constructor <;> omega
      rw [if_pos rfl, if_pos hc]
      congr 2
      omega
    · rw [if_neg ha, ih]
      by_cases hc : b ≤ a ∧ a < b + (w : Int)
      · have hc2 : b ≤ a ∧ a < b + ((w + 1 : Nat) : Int) := by
          constructor <;> omega
        rw [if_pos hc, if_pos hc2]
      · have hc2 : ¬ (b ≤ a ∧ a < b + ((w + 1 : Nat) : Int)) := by omega
        rw [if_neg hc, if_neg hc2]

theorem row_offsets_lt (L : Int) (w y h : Nat) (x : Nat) (hL : (w : Int) ≤ L)
    (hx : x < w) (hy : y < h) :
    (y : Int) * L + (x : Int) < (h : Int) * L := by
  have hL0 : (0 : Int) ≤ L := by omega
  have h1 : ((y : Int) + 1) * L ≤ (h : Int) * L :=
    Int.mul_le_mul_of_nonneg_right (by omega) hL0
  have h2 : ((y : Int) + 1) * L = (y : Int) * L + L := by ring
  omega

theorem luma_rows_spec (w : Nat) (L : Int) (i : Nat) (d0 : Int → Nat) (hL : (w : Int) ≤ L) :
    ∀ h : Nat,
      (∀ x y : Nat, x < w → y < h →
        ((List.range h).foldl
          (fun (m : Int → Nat) (y : Nat) =>
            (List.range w).foldl
              (fun (m : Int → Nat) (x : Nat) =>
                simple_encoder.store m ((y : Int) * L + (x : Int))
                  ((x : Int) + (y : Int) + (i : Int) * 3))
              m)
          d0) ((y : Int) * L + (x : Int))
          = (((x : Int) + (y : Int) + (i : Int) * 3) % 256).toNat) ∧
      (∀ a : Int, (a < 0 ∨ (h : Int) * L ≤ a) →
        ((List.range h).foldl
          (fun (m : Int → Nat) (y : Nat) =>
            (List.range w).foldl
              (fun (m : Int → Nat) (x : Nat) =>
                simple_encoder.store m ((y : Int) * L + (x : Int))
                  ((x : Int) + (y : Int) + (i : Int) * 3))
              m)
          d0) a = d0 a) := by
  have hL0 : (0 : Int) ≤ L := by omega
  intro h
  induction h with
  | zero =>
    refine ⟨fun x y _ hy => absurd hy (Nat.not_lt_zero _), fun a _ => ?_⟩
    simp
  | succ h ih =>
    obtain ⟨ih1, ih2⟩ := ih
    have hhL : (0 : Int) ≤ (h : Int) * L := mul_nonneg (by omega) hL0
    have hsucc : (((h + 1 : Nat) : Int)) * L = (h : Int) * L + L := by push_cast; ring
    rw [List.range_succ, List.foldl_append, List.foldl_cons, List.foldl_nil]
    constructor
    · intro x y hx hy
      rw [luma_row_apply]
      by_cases hyh : y = h
      · subst hyh
        have hc : (y : Int) * L ≤ (y : Int) * L + (x : Int)
            ∧ (y : Int) * L + (x : Int) < (y : Int) * L + (w : Int) := by
          constructor <;> omega
        rw [if_pos hc]
        congr 2
        omega
      · have hlt := row_offsets_lt L w y h x hL hx (by omega)
        have hc : ¬ ((h : Int) * L ≤ (y : Int) * L + (x : Int)
            ∧ (y : Int) * L + (x : Int) < (h : Int) * L + (w : Int)) := by omega
        rw [if_neg hc]
        exact ih1 x y hx (by omega)
    · intro a ha
      rw [luma_row_apply]
      have hc : ¬ ((h : Int) * L ≤ a ∧ a < (h : Int) * L + (w : Int)) := by
        rw [hsucc] at ha
        omega
      rw [if_neg hc]
      apply ih2
      rw [hsucc] at ha
      omega

theorem fill_luma_eq_exact (w h : Nat) (L : Int) (i : Nat) (d0 : Int → Nat)
    (hb : ∀ x y : Nat, x < w → y < h →
      0 ≤ (y : Int) * L + (x : Int) ∧ (y : Int) * L + (x : Int) ≤ 2147483647) :
    simple_encoder.fill_luma w h L i d0
      = (List.range h).foldl
          (fun (m : Int → Nat) (y : Nat) =>
            (List.range w).foldl
              (fun (m : Int → Nat) (x : Nat) =>
                simple_encoder.store m ((y : Int) * L + (x : Int))
                  ((x : Int) + (y : Int) + (i : Int) * 3))
              m)
          d0 := by
  unfold simple_encoder.fill_luma
  apply foldl_range_congr
  intro m y hy
  apply foldl_range_congr
  intro m2 x hx
  obtain ⟨b0, b1⟩ := hb x y hx hy
  rw [int32_eq_self _ (by omega) b1]

theorem fill_luma_outside_int (w h : Nat) (L : Int) (i : Nat) (d0 : Int → Nat) (a : Int)
    (ha : a < -2147483648 ∨ 2147483647 < a) :
    simple_encoder.fill_luma w h L i d0 a = d0 a := by
  unfold simple_encoder.fill_luma
  apply foldl_range_preserve (fun m => m a = d0 a) _ _ h d0 rfl
  intro m y hm
  apply foldl_range_preserve (fun m => m a = d0 a) _ _ w m hm
  intro m2 x hm2
  rw [store_apply]
  have hr := int32_range ((y : Int) * L + (x : Int))
  have hne : ¬ a = int32 ((y : Int) * L + (x : Int)) := by omega
  rw [if_neg hne]
  exact hm2

theorem fill_luma_last (w h : Nat) (L : Int) (i : Nat) (d0 : Int → Nat) :
    simple_encoder.fill_luma (w + 1) (h + 1) L i d0 (int32 ((h : Int) * L + (w : Int)))
      = (((w : Int) + (h : Int) + (i : Int) * 3) % 256).toNat := by
  unfold simple_encoder.fill_luma
  simp only [List.range_succ, List.foldl_append, List.foldl_cons, List.foldl_nil]
  rw [store_apply, if_pos rfl]

theorem chroma_row_apply (b1 b2 : Int) (i y : Nat) :
    ∀ (k : Nat) (d : (Int → Nat) × (Int → Nat)) (a : Int),
      ((List.range k).foldl
          (fun (d : (Int → Nat) × (Int → Nat)) (x : Nat) =>
            (simple_encoder.store d.1 (b1 + (x : Int)) (128 + (y : Int) + (i : Int) * 2),
             simple_encoder.store d.2 (b2 + (x : Int)) (64 + (x : Int) + (i : Int) * 5)))
          d).1 a
        = (if b1 ≤ a ∧ a < b1 + (k : Int)
            then ((128 + (y : Int) + (i : Int) * 2) % 256).toNat else d.1 a) ∧
      ((List.range k).foldl
          (fun (d : (Int → Nat) × (Int → Nat)) (x : Nat) =>
            (simple_encoder.store d.1 (b1 + (x : Int)) (128 + (y : Int) + (i : Int) * 2),
             simple_encoder.store d.2 (b2 + (x : Int)) (64 + (x : Int) + (i : Int) * 5)))
          d).2 a
        = (if b2 ≤ a ∧ a < b2 + (k : Int)
            then ((64 + (a - b2) + (i : Int) * 5) % 256).toNat else d.2 a) := by
  intro k
  induction k with
  | zero =>
    intro d a
    have h1 : ¬ (b1 ≤ a ∧ a < b1) := by omega
    have h2 : ¬ (b2 ≤ a ∧ a < b2) := by omega
    simp [h1, h2]
  | succ k ih =>
    intro d a
    rw [List.range_succ, List.foldl_append, List.foldl_cons, List.foldl_nil]
    obtain ⟨ih1, ih2⟩ := ih d a
    constructor
    · show simple_encoder.store _ _ _ a = _
      rw [store_apply]
      by_cases ha : a = b1 + (k : Int)
      · have hc : b1 ≤ a ∧ a < b1 + ((k + 1 : Nat) : Int) := by
          constructor <;> omega
        rw [if_pos ha, if_pos hc]
      · rw [if_neg ha, ih1]
        by_cases hc : b1 ≤ a ∧ a < b1 + (k : Int)
        · have hc2 : b1 ≤ a ∧ a < b1 + ((k + 1 : Nat) : Int) := by
            constructor <;> omega
          rw [if_pos hc, if_pos hc2]
        · have hc2 : ¬ (b1 ≤ a ∧ a < b1 + ((k + 1 : Nat) : Int)) := by omega
          rw [if_neg hc, if_neg hc2]
    · show simple_encoder.store _ _ _ a = _
      rw [store_apply]
      by_cases ha : a = b2 + (k : Int)
      · have hc : b2 ≤ a ∧ a < b2 + ((k + 1 : Nat) : Int) := by
          constructor <;> omega
        rw [if_pos ha, if_pos hc]
        congr 2
        omega
      · rw [if_neg ha, ih2]
        by_cases hc : b2 ≤ a ∧ a < b2 + (k : Int)
        · have hc2 : b2 ≤ a ∧ a < b2 + ((k + 1 : Nat) : Int) := by
            constructor <;> omega
          rw [if_pos hc, if_pos hc2]
        · have hc2 : ¬ (b2 ≤ a ∧ a < b2 + ((k + 1 : Nat) : Int)) := by omega
          rw [if_neg hc, if_neg hc2]

theorem chroma_rows_spec (k : Nat) (L1 L2 : Int) (i : Nat) (d : (Int → Nat) × (Int → Nat))
    (hL1 : (k : Int) ≤ L1) (hL2 : (k : Int) ≤ L2) :
    ∀ n : Nat,
      (∀ x y : Nat, x < k → y < n →
        ((List.range n).foldl
          (fun (d : (Int → Nat) × (Int → Nat)) (y : Nat) =>
            (List.range k).foldl
              (fun (d : (Int → Nat) × (Int → Nat)) (x : Nat) =>
                (simple_encoder.store d.1 ((y : Int) * L1 + (x : Int))
                    (128 + (y : Int) + (i : Int) * 2),
                 simple_encoder.store d.2 ((y : Int) * L2 + (x : Int))
                    (64 + (x : Int) + (i : Int) * 5)))
              d)
          d).1 ((y : Int) * L1 + (x : Int))
            = ((128 + (y : Int) + (i : Int) * 2) % 256).toNat ∧
        ((List.range n).foldl
          (fun (d : (Int → Nat) × (Int → Nat)) (y : Nat) =>
            (List.range k).foldl
              (fun (d : (Int → Nat) × (Int → Nat)) (x : Nat) =>
                (simple_encoder.store d.1 ((y : Int) * L1 + (x : Int))
                    (128 + (y : Int) + (i : Int) * 2),
                 simple_encoder.store d.2 ((y : Int) * L2 + (x : Int))
                    (64 + (x : Int) + (i : Int) * 5)))
              d)
          d).2 ((y : Int) * L2 + (x : Int))
            = ((64 + (x : Int) + (i : Int) * 5) % 256).toNat) ∧
      (∀ a : Int, (a < 0 ∨ (n : Int) * L1 ≤ a) →
        ((List.range n).foldl
          (fun (d : (Int → Nat) × (Int → Nat)) (y : Nat) =>
            (List.range k).foldl
              (fun (d : (Int → Nat) × (Int → Nat)) (x : Nat) =>
                (simple_encoder.store d.1 ((y : Int) * L1 + (x : Int))
                    (128 + (y : Int) + (i : Int) * 2),
                 simple_encoder.store d.2 ((y : Int) * L2 + (x : Int))
                    (64 + (x : Int) + (i : Int) * 5)))
              d)
          d).1 a = d.1 a) ∧
      (∀ a : Int, (a < 0 ∨ (n : Int) * L2 ≤ a) →
        ((List.range n).foldl
          (fun (d : (Int → Nat) × (Int → Nat)) (y : Nat) =>
            (List.range k).foldl
              (fun (d : (Int → Nat) × (Int → Nat)) (x : Nat) =>
                (simple_encoder.store d.1 ((y : Int) * L1 + (x : Int))
                    (128 + (y : Int) + (i : Int) * 2),
                 simple_encoder.store d.2 ((y : Int) * L2 + (x : Int))
                    (64 + (x : Int) + (i : Int) * 5)))
              d)
          d).2 a = d.2 a) := by
  have hL10 : (0 : Int) ≤ L1 := by omega
  have hL20 : (0 : Int) ≤ L2 := by omega
  intro n
  induction n with
  | zero =>
    refine ⟨fun x y _ hy => absurd hy (Nat.not_lt_zero _), fun a _ => ?_, fun a _ => ?_⟩ <;> simp
  | succ n ih =>
    obtain ⟨ih1, ih2, ih3⟩ := ih
    have hn1 : (0 : Int) ≤ (n : Int) * L1 := mul_nonneg (by omega) hL10
    have hn2 : (0 : Int) ≤ (n : Int) * L2 := mul_nonneg (by omega) hL20
    have hs1 : (((n + 1 : Nat) : Int)) * L1 = (n : Int) * L1 + L1 := by push_cast; ring
    have hs2 : (((n + 1 : Nat) : Int)) * L2 = (n : Int) * L2 + L2 := by push_cast; ring
    rw [List.range_succ, List.foldl_append, List.foldl_cons, List.foldl_nil]
    refine ⟨?_, ?_, ?_⟩
    · intro x y hx hy
      have hrow := chroma_row_apply ((n : Int) * L1) ((n : Int) * L2) i n k
      by_cases hyn : y = n
      · subst hyn
        constructor
        · rw [(hrow _ _).1]
          have hc : (y : Int) * L1 ≤ (y : Int) * L1 + (x : Int)
              ∧ (y : Int) * L1 + (x : Int) < (y : Int) * L1 + (k : Int) := by
            constructor <;> omega
          rw [if_pos hc]
        · rw [(hrow _ _).2]
          have hc : (y : Int) * L2 ≤ (y : Int) * L2 + (x : Int)
              ∧ (y : Int) * L2 + (x : Int) < (y : Int) * L2 + (k : Int) := by
            constructor <;> omega
          rw [if_pos hc]
          congr 2
          omega
      · have hlt1 := row_offsets_lt L1 k y n x hL1 hx (by omega)
        have hlt2 := row_offsets_lt L2 k y n x hL2 hx (by omega)
        obtain ⟨i1, i2⟩ := ih1 x y hx (by omega)
        constructor
        · rw [(hrow _ _).1]
          have hc : ¬ ((n : Int) * L1 ≤ (y : Int) * L1 + (x : Int)
              ∧ (y : Int) * L1 + (x : Int) < (n : Int) * L1 + (k : Int)) := by omega
          rw [if_neg hc]
          exact i1
        · rw [(hrow _ _).2]
          have hc : ¬ ((n : Int) * L2 ≤ (y : Int) * L2 + (x : Int)
              ∧ (y : Int) * L2 + (x : Int) < (n : Int) * L2 + (k : Int)) := by omega
          rw [if_neg hc]
          exact i2
    · intro a ha
      rw [(chroma_row_apply ((n : Int) * L1) ((n : Int) * L2) i n k _ _).1]
      rw [hs1] at ha
      have hc : ¬ ((n : Int) * L1 ≤ a ∧ a < (n : Int) * L1 + (k : Int)) := by omega
      rw [if_neg hc]
      apply ih2
      omega
    · intro a ha
      rw [(chroma_row_apply ((n : Int) * L1) ((n : Int) * L2) i n k _ _).2]
      rw [hs2] at ha
      have hc : ¬ ((n : Int) * L2 ≤ a ∧ a < (n : Int) * L2 + (k : Int)) := by omega
      rw [if_neg hc]
      apply ih3
      omega

theorem chroma_rows_eq_exact (n k : Nat) (L1 L2 : Int) (i : Nat)
    (d : (Int → Nat) × (Int → Nat))
    (hb1 : ∀ x y : Nat, x < k → y < n →
      0 ≤ (y : Int) * L1 + (x : Int) ∧ (y : Int) * L1 + (x : Int) ≤ 2147483647)
    (hb2 : ∀ x y : Nat, x < k → y < n →
      0 ≤ (y : Int) * L2 + (x : Int) ∧ (y : Int) * L2 + (x : Int) ≤ 2147483647) :
    (List.range n).foldl
        (fun (d : (Int → Nat) × (Int → Nat)) (y : Nat) =>
          (List.range k).foldl
            (fun (d : (Int → Nat) × (Int → Nat)) (x : Nat) =>
              (simple_encoder.store d.1 (int32 ((y : Int) * L1 + (x : Int)))
                  (128 + (y : Int) + (i : Int) * 2),
               simple_encoder.store d.2 (int32 ((y : Int) * L2 + (x : Int)))
                  (64 + (x : Int) + (i : Int) * 5)))
            d)
        d
      = (List.range n).foldl
          (fun (d : (Int → Nat) × (Int → Nat)) (y : Nat) =>
            (List.range k).foldl
              (fun (d : (Int → Nat) × (Int → Nat)) (x : Nat) =>
                (simple_encoder.store d.1 ((y : Int) * L1 + (x : Int))
                    (128 + (y : Int) + (i : Int) * 2),
                 simple_encoder.store d.2 ((y : Int) * L2 + (x : Int))
                    (64 + (x : Int) + (i : Int) * 5)))
              d)
          d := by
  apply foldl_range_congr
  intro m y hy
  apply foldl_range_congr
  intro m2 x hx
  obtain ⟨a0, a1⟩ := hb1 x y hx hy
  obtain ⟨b0, b1⟩ := hb2 x y hx hy
  rw [int32_eq_self _ (by omega) a1, int32_eq_self _ (by omega) b1]

theorem offset_bound (L : Int) (x y xm ym : Nat) (hL : 0 ≤ L) (hx : x ≤ xm) (hy : y ≤ ym)
    (hb : (ym : Int) * L + (xm : Int) ≤ 2147483647) :
    0 ≤ (y : Int) * L + (x : Int) ∧ (y : Int) * L + (x : Int) ≤ 2147483647 := by
  have h0 : (0 : Int) ≤ (y : Int) * L := mul_nonneg (by omega) hL
  have h1 : (y : Int) * L ≤ (ym : Int) * L :=
    Int.mul_le_mul_of_nonneg_right (by omega) hL
  constructor <;> omega

/-- C9, amended: for every frame index `i < 200` and line sizes `L0 ≥ 640`,
`L1 ≥ 320`, `L2 ≥ 320` for which the largest index fits an `int`
(`479*L0 + 639 ≤ INT_MAX`, `239*L1 + 319 ≤ INT_MAX`, `239*L2 + 319 ≤ INT_MAX`),
after the synthesis loops the luma byte at offset
`y*L0 + x` is `(x + y + 3*i) mod 256` for `x < 640`, `y < 480`, the Cb byte at
`y*L1 + x` is `(128 + y + 2*i) mod 256` and the Cr byte at `y*L2 + x` is
`(64 + x + 5*i) mod 256` for `x < 320`, `y < 240`; and no byte outside a
plane, at an offset below 0 or from `L * plane_height` on, is written. -/
theorem C9_synthesize_pixels (i : Nat) (L0 L1 L2 : Int) (p : simple_encoder.Planes)
    (hi : i < 200) (h0 : 640 ≤ L0) (h1 : 320 ≤ L1) (h2 : 320 ≤ L2)
    (hb0 : 479 * L0 + 639 ≤ INT_MAX) (hb1 : 239 * L1 + 319 ≤ INT_MAX)
    (hb2 : 239 * L2 + 319 ≤ INT_MAX) :
    (∀ x y : Nat, x < 640 → y < 480 →
      (simple_encoder.synthesize L0 L1 L2 i p).d0 ((y : Int) * L0 + (x : Int))
        = (x + y + 3 * i) % 256) ∧
    (∀ x y : Nat, x < 320 → y < 240 →
      (simple_encoder.synthesize L0 L1 L2 i p).d1 ((y : Int) * L1 + (x : Int))
        = (128 + y + 2 * i) % 256 ∧
      (simple_encoder.synthesize L0 L1 L2 i p).d2 ((y : Int) * L2 + (x : Int))
        = (64 + x + 5 * i) % 256) ∧
    (∀ a : Int, (a < 0 ∨ L0 * 480 ≤ a) →
      (simple_encoder.synthesize L0 L1 L2 i p).d0 a = p.d0 a) ∧
    (∀ a : Int, (a < 0 ∨ L1 * 240 ≤ a) →
      (simple_encoder.synthesize L0 L1 L2 i p).d1 a = p.d1 a) ∧
    (∀ a : Int, (a < 0 ∨ L2 * 240 ≤ a) →
      (simple_encoder.synthesize L0 L1 L2 i p).d2 a = p.d2 a) := by
  have hi200 : i < 200 := hi
  unfold INT_MAX at hb0 hb1 hb2
  have hl := luma_rows_spec 640 L0 i p.d0 (by omega) 480
  have hcr := chroma_rows_spec 320 L1 L2 i (p.d1, p.d2) (by omega) (by omega) 240
  have el := fill_luma_eq_exact 640 480 L0 i p.d0
    (fun x y hx hy => offset_bound L0 x y 639 479 (by omega) (by omega) (by omega)
      (by push_cast; omega))
  have ec := chroma_rows_eq_exact 240 320 L1 L2 i (p.d1, p.d2)
    (fun x y hx hy => offset_bound L1 x y 319 239 (by omega) (by omega) (by omega)
      (by push_cast; omega))
    (fun x y hx hy => offset_bound L2 x y 319 239 (by omega) (by omega) (by omega)
      (by push_cast; omega))
  obtain ⟨l1, l2⟩ := hl
  obtain ⟨c1, c2, c3⟩ := hcr
  refine ⟨?_, ?_, ?_, ?_, ?_⟩
  · intro x y hx hy
    have := l1 x y hx hy
    simp only [simple_encoder.synthesize, simple_encoder.width, simple_encoder.height]
    rw [el, this]
    omega
  · intro x y hx hy
    obtain ⟨e1, e2⟩ := c1 x y hx hy
    simp only [simple_encoder.synthesize, simple_encoder.fill_chroma, simple_encoder.width,
      simple_encoder.height]
    rw [ec]
    constructor
    · rw [e1]; omega
    · rw [e2]; omega
  · intro a ha
    simp only [simple_encoder.synthesize, simple_encoder.width, simple_encoder.height]
    rw [el]
    apply l2
    omega
  · intro a ha
    simp only [simple_encoder.synthesize, simple_encoder.fill_chroma, simple_encoder.width,
      simple_encoder.height]
    rw [ec]
    apply c2
    omega
  · intro a ha
    simp only [simple_encoder.synthesize, simple_encoder.fill_chroma, simple_encoder.width,
      simple_encoder.height]
    rw [ec]
    apply c3
    omega

/-- Witness for C9: frame 7 on planes with the line sizes 640, 320, 320; the
luma byte of pixel (250, 100) is `(250 + 100 + 21) mod 256 = 115`. -/
theorem C9_synthesize_pixels_witness :
    (7 : Nat) < 200 ∧ (640 : Int) ≤ 640 ∧ (320 : Int) ≤ 320 ∧
    (479 * 640 + 639 : Int) ≤ INT_MAX ∧ (239 * 320 + 319 : Int) ≤ INT_MAX ∧
    (simple_encoder.synthesize 640 320 320 7 simple_encoder.blank).d0 (100 * 640 + 250) = 115 ∧
    (simple_encoder.synthesize 640 320 320 7 simple_encoder.blank).d1 (100 * 320 + 250) = 242 ∧
    (simple_encoder.synthesize 640 320 320 7 simple_encoder.blank).d2 (100 * 320 + 250) = 93 ∧
    (simple_encoder.synthesize 640 320 320 7 simple_encoder.blank).d0 (480 * 640) = 0 := by
  have h := C9_synthesize_pixels 7 640 320 320 simple_encoder.blank
    (by decide) (by decide) (by decide) (by decide) (by decide) (by decide) (by decide)
  obtain ⟨a, b, c, _, _⟩ := h
  refine ⟨by decide, by decide, by decide, by decide, by decide, ?_, ?_, ?_, ?_⟩
  · have := a 250 100 (by decide) (by decide)
    simpa using this
  · have := (b 250 100 (by decide) (by decide)).1
    simpa using this
  · have := (b 250 100 (by decide) (by decide)).2
    simpa using this
  · have := c (480 * 640) (Or.inr (by decide))
    simpa [simple_encoder.blank] using this

/-- C9 as stated fails for the line size `L0 = 2^23` (with `L1 = L2 = 320`,
frame 0, planes all zero), which meets the stated conditions: for the pixel
`x = 639`, `y = 479` the index `479 * 2^23 + 639` exceeds `INT_MAX`; the byte
at that offset is not written (it stays 0, the claim asks for 94), and the
value 94 is stored at the offset -276823425, before the plane. -/
theorem C9_counterexample_index_wraps :
    (0 : Nat) < 200 ∧ (640 : Int) ≤ 8388608 ∧ (320 : Int) ≤ 320 ∧
    (639 : Nat) < 640 ∧ (479 : Nat) < 480 ∧
    (639 + 479 + 3 * 0) % 256 = 94 ∧
    (simple_encoder.synthesize 8388608 320 320 0 simple_encoder.blank).d0
      (479 * 8388608 + 639) = 0 ∧
    (simple_encoder.synthesize 8388608 320 320 0 simple_encoder.blank).d0 (-276823425) = 94 ∧
    (-276823425 : Int) < 0 := by
  refine ⟨by decide, by decide, by decide, by decide, by decide, by decide, ?_, ?_, by decide⟩
  · have h := fill_luma_outside_int 640 480 8388608 0 simple_encoder.blank.d0
      (479 * 8388608 + 639) (Or.inr (by decide))
    simpa [simple_encoder.synthesize, simple_encoder.width, simple_encoder.height,
      simple_encoder.blank] using h
  · have h := fill_luma_last 639 479 8388608 0 simple_encoder.blank.d0
    have e : int32 (((479 : Nat) : Int) * 8388608 + ((639 : Nat) : Int)) = -276823425 := by
      decide
    rw [e] at h
    simpa [simple_encoder.synthesize, simple_encoder.width, simple_encoder.height] using h

/-! ## `encode_write_frame` -/

theorem milestones_append (a b : List Ev) :
    simple_encoder.milestones (a ++ b)
      = simple_encoder.milestones a ++ simple_encoder.milestones b := by
  simp [simple_encoder.milestones, List.filterMap_append]

theorem configs_append (a b : List Ev) :
    simple_encoder.configs (a ++ b)
      = simple_encoder.configs a ++ simple_encoder.configs b := by
  simp [simple_encoder.configs, List.filterMap_append]

theorem drain_ok (c : AVCodes) :
    ∀ (steps : List simple_encoder.PktStep) (ret : Int), 0 ≤ ret →
      (∀ s ∈ steps, s.alloc = true ∧
        (s.recv = c.EAGAIN ∨ s.recv = c.EOF ∨ (0 ≤ s.recv ∧ 0 ≤ s.write))) →
      0 ≤ (simple_encoder.drain c ret steps).1 ∧
      simple_encoder.milestones (simple_encoder.drain c ret steps).2.2 = [] ∧
      simple_encoder.configs (simple_encoder.drain c ret steps).2.2 = [] := by
  intro steps
  induction steps with
  | nil =>
    intro ret hret _
    have hn : ¬ ret < 0 := by omega
    simp only [simple_encoder.drain, hn, if_false]
    refine ⟨by split <;> omega, by simp [simple_encoder.milestones],
      by simp [simple_encoder.configs]⟩
  | cons s rest ih =>
    intro ret hret hall
    have hn : ¬ ret < 0 := by omega
    obtain ⟨halloc, hs⟩ := hall s (List.mem_cons_self _ _)
    have hrest := fun x hx => hall x (List.mem_cons_of_mem _ hx)
    by_cases hstop : s.recv = c.EAGAIN ∨ s.recv = c.EOF
    · simp only [simple_encoder.drain, hn, halloc, hstop, if_true, if_false, Bool.not_true,
        Bool.false_eq_true]
      refine ⟨by split <;> omega, by simp [simple_encoder.milestones],
        by simp [simple_encoder.configs]⟩
    · have hs2 : 0 ≤ s.recv ∧ 0 ≤ s.write := by
        rcases hs with h | h | h
        · exact absurd (Or.inl h) hstop
        · exact absurd (Or.inr h) hstop
        · exact h
      have hr : ¬ s.recv < 0 := by omega
      have hw : ¬ s.write < 0 := by omega
      obtain ⟨i1, i2, i3⟩ := ih s.write hs2.2 hrest
      simp only [simple_encoder.drain, hn, halloc, hstop, hr, hw, if_false, Bool.not_true,
        Bool.false_eq_true, milestones_append, configs_append, i1, i2, i3]
      simp [simple_encoder.milestones, simple_encoder.configs]

theorem encode_write_frame_ok (c : AVCodes) (pts : Option Int)
    (call : simple_encoder.EncCall) (h : simple_encoder.call_ok c call) :
    0 ≤ (simple_encoder.encode_write_frame c pts call).1 ∧
    simple_encoder.milestones (simple_encoder.encode_write_frame c pts call).2.2
      = [simple_encoder.Milestone.encode pts] ∧
    simple_encoder.configs (simple_encoder.encode_write_frame c pts call).2.2 = [] := by
  obtain ⟨hsend, hsteps⟩ := h
  have hn : ¬ call.send < 0 := by omega
  obtain ⟨i1, i2, i3⟩ := drain_ok c call.steps call.send hsend hsteps
  have i2b := i2
  have i3b := i3
  simp only [simple_encoder.milestones] at i2b
  simp only [simple_encoder.configs] at i3b
  simp only [simple_encoder.encode_write_frame, hn, if_false]
  refine ⟨i1, ?_, ?_⟩
  · simp [simple_encoder.milestones, i2b]
  · simp [simple_encoder.configs, i3b]

theorem encode_loop_ok (c : AVCodes) (env : simple_encoder.Env) :
    ∀ (n i : Nat),
      (∀ j, i ≤ j → j < i + n →
        0 ≤ (env.iters j).make_writable ∧ simple_encoder.call_ok c (env.iters j).call) →
      simple_encoder.milestones (simple_encoder.encode_loop c env n i)
        = (List.range' i n).map (fun (j : Nat) => simple_encoder.Milestone.encode (some (j : Int))) ∧
      simple_encoder.configs (simple_encoder.encode_loop c env n i) = [] := by
  intro n
  induction n with
  | zero =>
    intro i _
    simp [simple_encoder.encode_loop, simple_encoder.milestones, simple_encoder.configs]
  | succ n ih =>
    intro i hall
    obtain ⟨hmw, hcall⟩ := hall i (Nat.le_refl _) (by omega)
    have hn : ¬ (env.iters i).make_writable < 0 := by omega
    obtain ⟨e1, e2, e3⟩ := encode_write_frame_ok c (some (i : Int)) (env.iters i).call hcall
    have hn2 : ¬ (simple_encoder.encode_write_frame c (some (i : Int)) (env.iters i).call).1 < 0 := by
      omega
    obtain ⟨l1, l2⟩ := ih (i + 1) (fun j h1 h2 => hall j (by omega) (by omega))
    have hcons : ∀ (r : Int) (t : List Ev),
        simple_encoder.milestones (Ev.av_frame_make_writable r :: t)
          = simple_encoder.milestones t ∧
        simple_encoder.configs (Ev.av_frame_make_writable r :: t)
          = simple_encoder.configs t := by
      intro r t
      simp [simple_encoder.milestones, simple_encoder.configs]
    simp only [simple_encoder.encode_loop, hn, hn2, if_false]
    rw [List.cons_append, (hcons _ _).1, (hcons _ _).2, milestones_append, configs_append,
      e2, e3, l1, l2]
    simp [List.range'_succ]

/-- C3: when every framework call succeeds, `simple_encoder` returns 0; the
encoder context is configured once, with width 640, height 480, time base
1/25 and frame rate 25/1; and `encode_write_frame` is called for 200 frames
with `pts` 0, 1, ..., 199 in this order, then exactly once with the NULL
frame, after which `av_write_trailer` is called exactly once. -/
theorem C3_encoder_success_run (c : AVCodes) (env : simple_encoder.Env)
    (hok : simple_encoder.all_ok c env) :
    (simple_encoder.main c env).1 = 0 ∧
    simple_encoder.configs (simple_encoder.main c env).2
      = [{ width := 640, height := 480, time_base_num := 1, time_base_den := 25,
           framerate_num := 25, framerate_den := 1, gop_size := 12, max_b_frames := 1 }] ∧
    simple_encoder.milestones (simple_encoder.main c env).2
      = (List.range 200).map (fun (j : Nat) => simple_encoder.Milestone.encode (some (j : Int)))
          ++ [simple_encoder.Milestone.encode none, simple_encoder.Milestone.trailer] := by
  obtain ⟨h1, h2, h3, h4, h5, h6, h7, h8, h9, h10, h11, h12, _⟩ := hok
  have n5 : ¬ env.open2 < 0 := by omega
  have n6 : ¬ env.parameters_from_context < 0 := by omega
  have n8 : ¬ env.write_header < 0 := by omega
  have n10 : ¬ env.frame_get_buffer < 0 := by omega
  have n7 : ¬ ((!env.nofile) = true ∧
      (if (!env.nofile) = true then env.avio_open
        else env.parameters_from_context) < 0) := by
    cases hnf : env.nofile with
    | true => simp
    | false =>
      have := h7 hnf
      simp only [Bool.not_false, if_true, true_and]
      omega
  obtain ⟨l1, l2⟩ := encode_loop_ok c env simple_encoder.total_frames 0
    (fun j _ hj => h11 j (by omega))
  obtain ⟨f1, f2, f3⟩ := encode_write_frame_ok c none env.flush h12
  have hmain : simple_encoder.main c env
      = ((simple_encoder.cleanup env true true true env.frame_get_buffer).1,
          [Ev.av_log_set_level,
           Ev.avformat_alloc_output_context2 simple_encoder.filename true,
           Ev.avcodec_find_encoder_by_name "libx264" true,
           Ev.avformat_new_stream true,
           Ev.avcodec_alloc_context3 true,
           Ev.codec_ctx_assign
            { width := 640, height := 480, time_base_num := 1, time_base_den := 25,
              framerate_num := 25, framerate_den := 1, gop_size := 12, max_b_frames := 1 }]
          ++ (if env.codec_is_h264 then [Ev.av_opt_set "preset" "slow"] else [])
          ++ [Ev.avcodec_open2 env.open2,
              Ev.avcodec_parameters_from_context env.parameters_from_context,
              Ev.av_dump_format]
          ++ (if !env.nofile then [Ev.avio_open simple_encoder.filename env.avio_open] else [])
          ++ [Ev.avformat_write_header env.write_header,
              Ev.av_frame_alloc true,
              Ev.av_frame_get_buffer env.frame_get_buffer]
          ++ simple_encoder.encode_loop c env simple_encoder.total_frames 0
          ++ (simple_encoder.encode_write_frame c none env.flush).2.2
          ++ [Ev.av_write_trailer env.write_trailer,
              Ev.av_log .info "Encode finished to %s\n" [simple_encoder.filename]]
          ++ (simple_encoder.cleanup env true true true env.frame_get_buffer).2) := by
    simp only [simple_encoder.main, h1, h2, h3, h4, h9, n5, n6, n7, n8, n10, if_false,
      Bool.not_true, Bool.false_eq_true, simple_encoder.width, simple_encoder.height,
      simple_encoder.frame_rate]
    simp
  rw [hmain]
  refine ⟨?_, ?_, ?_⟩
  · simp [simple_encoder.cleanup, n10]
  · simp only [configs_append, l2, f3]
    cases env.codec_is_h264 <;> cases env.nofile <;>
      simp [simple_encoder.configs, simple_encoder.cleanup]
  · simp only [milestones_append, l1, f2]
    cases env.codec_is_h264 <;> cases env.nofile <;>
      simp [simple_encoder.milestones, simple_encoder.cleanup, simple_encoder.total_frames,
        List.range_eq_range']

/-- Witness for C3 on `sample_env`: the run returns 0. -/
theorem C3_encoder_success_run_witness :
    simple_encoder.all_ok linuxCodes simple_encoder.sample_env ∧
    (simple_encoder.main linuxCodes simple_encoder.sample_env).1 = 0 ∧
    (simple_encoder.milestones
      (simple_encoder.main linuxCodes simple_encoder.sample_env).2).length = 202 := by
  have hok : simple_encoder.all_ok linuxCodes simple_encoder.sample_env := by
    refine ⟨rfl, rfl, rfl, rfl, by decide, by decide, fun _ => by decide, by decide, rfl,
      by decide, fun i _ => ⟨?_, ?_⟩, ?_, by decide⟩
    · show (0 : Int) ≤ 0
      decide
    · show simple_encoder.call_ok linuxCodes simple_encoder.sample_call
      unfold simple_encoder.call_ok; decide
    · unfold simple_encoder.call_ok; decide
  have h := C3_encoder_success_run linuxCodes simple_encoder.sample_env hok
  refine ⟨hok, h.1, ?_⟩
  rw [h.2.2]
  simp

/-! ## Runs on which the programs leave the error discipline -/

/-- C1: a failing framework call does not make `main` return non-zero.  In
`simple_encoder`, when `avcodec_send_frame` returns -22 for the first frame,
`encode_write_frame` returns -22 and `main` still returns 0; in
`simple_decoder`, when `avcodec_send_packet` returns -22, `main` logs the error
and still returns 0. -/
theorem C1_failed_call_returns_zero :
    (simple_encoder.encode_write_frame linuxCodes (some 0)
      (simple_encoder.env_send_fails.iters 0).call).1 = -22 ∧
    Ev.avcodec_send_frame (some 0) (-22)
      ∈ (simple_encoder.main linuxCodes simple_encoder.env_send_fails).2 ∧
    (simple_encoder.main linuxCodes simple_encoder.env_send_fails).1 = 0 ∧
    simple_decoder.main linuxCodes "simple_decoder" ["in.mp4"] simple_decoder.env_send_fails
      = (0, [Ev.av_log_set_level, Ev.avformat_open_input "in.mp4" 0,
             Ev.avformat_find_stream_info 0, Ev.av_dump_format, Ev.av_find_best_stream 0,
             Ev.avcodec_find_decoder true, Ev.avcodec_alloc_context3 true,
             Ev.avcodec_parameters_to_context 0, Ev.avcodec_open2 0,
             Ev.av_packet_alloc true, Ev.av_frame_alloc true,
             Ev.av_read_frame 0, Ev.avcodec_send_packet (-22),
             Ev.av_log .error "Error sending a packet for decoding\n" [],
             Ev.av_packet_free, Ev.av_frame_free, Ev.avcodec_close,
             Ev.avcodec_free_context, Ev.avformat_close_input]) := by
  refine ⟨by decide, by decide, by decide, by decide⟩

/-- C4: when `libx264` is not found, `main` of `simple_encoder` jumps to `end`
over the declaration of `frame`; with a non-zero value in that variable it
calls `av_frame_free`, although `av_frame_alloc` was never called. -/
theorem C4_encoder_frees_unallocated_frame :
    simple_encoder.main linuxCodes simple_encoder.env_codec_missing
      = (0, [Ev.av_log_set_level,
             Ev.avformat_alloc_output_context2 "test.mp4" true,
             Ev.avcodec_find_encoder_by_name "libx264" false,
             Ev.av_log .error "Codec 'libx264' not found\n" [],
             Ev.av_frame_free, Ev.avio_closep, Ev.avformat_free_context]) := by
  decide

/-- C6: when `av_frame_make_writable` fails in the first round of the encoding
loop, `main` of `simple_encoder` still flushes the encoder with a NULL frame,
writes the trailer and logs "Encode finished". -/
theorem C6_encoder_continues_after_failure :
    simple_encoder.main linuxCodes simple_encoder.env_make_writable_fails
      = (0, [Ev.av_log_set_level,
             Ev.avformat_alloc_output_context2 "test.mp4" true,
             Ev.avcodec_find_encoder_by_name "libx264" true,
             Ev.avformat_new_stream true,
             Ev.avcodec_alloc_context3 true,
             Ev.codec_ctx_assign
              { width := 640, height := 480, time_base_num := 1, time_base_den := 25,
                framerate_num := 25, framerate_den := 1, gop_size := 12, max_b_frames := 1 },
             Ev.av_opt_set "preset" "slow",
             Ev.avcodec_open2 0,
             Ev.avcodec_parameters_from_context 0,
             Ev.av_dump_format,
             Ev.avio_open "test.mp4" 0,
             Ev.avformat_write_header 0,
             Ev.av_frame_alloc true,
             Ev.av_frame_get_buffer 0,
             Ev.av_frame_make_writable (-12),
             Ev.avcodec_send_frame none 0,
             Ev.av_packet_alloc true,
             Ev.avcodec_receive_packet 0 9,
             Ev.av_packet_rescale_ts,
             Ev.av_interleaved_write_frame 9 0 0,
             Ev.av_packet_free,
             Ev.av_packet_alloc true,
             Ev.avcodec_receive_packet (-541478725) 0,
             Ev.av_packet_free,
             Ev.av_write_trailer 0,
             Ev.av_log .info "Encode finished to %s\n" ["test.mp4"],
             Ev.av_frame_free, Ev.avcodec_free_context, Ev.avio_closep,
             Ev.avformat_free_context]) := by
  decide
